import Mathlib

/-!
# Bus ticket booking engine: a shallow embedding

This file embeds the core of the bus ticket booking repository
(`models.py`, `booking_system.py`, `admin.py`) into Lean 4 and proves or
refutes the frozen claims about it.

Modelling conventions:

* Python dicts are insertion-ordered association lists (`List (k × v)`);
  `alSet` is `d[k] = v` (replace in place or append), `alErase` is `del d[k]`,
  `alLookup` is `d.get(k)`.
* A per-date seat dict `{1: h1, ..., cap: hN}` always has exactly the keys
  `1..total_seats` (it is created whole by `_ensure_date_exists` and its keys
  are never added or removed), so it is represented positionally as
  `List (Option String)` of length `total_seats`, seat `s` at index `s - 1`.
* Wall-clock time (`time.time()`) is an explicit `now : Nat` argument.
* Python exceptions escaping an operation are modelled with `Except PyErr`;
  the state component returned alongside keeps the mutations made before the
  raise, as the live Python objects would.
* Float arithmetic on load factors is modelled with `ℚ`.
* Threading/locks are not modelled; every operation runs under the system
  lock in the source, so operations are atomic steps here.
* The persistence gateway (`database.py`) is mirrored in the state
  (`db_bus_seats`, `db_bookings`); its calls are assumed to succeed, as the
  spec declares persistence an external collaborator.
* The async logger and the route string are plumbing and are omitted.
-/

/-- Python `d.get(k)` on an insertion-ordered dict. -/
def alLookup {α β : Type} [DecidableEq α] (l : List (α × β)) (k : α) : Option β :=
  match l with
  | [] => none
  | (k', v) :: rest => if k' = k then some v else alLookup rest k

/-- Python `d[k] = v` on an insertion-ordered dict: replace in place, else append. -/
def alSet {α β : Type} [DecidableEq α] (l : List (α × β)) (k : α) (v : β) :
    List (α × β) :=
  match l with
  | [] => [(k, v)]
  | (k', v') :: rest =>
    if k' = k then (k, v) :: rest else (k', v') :: alSet rest k v

/-- Python `del d[k]` on an insertion-ordered dict (removes the first binding). -/
def alErase {α β : Type} [DecidableEq α] (l : List (α × β)) (k : α) :
    List (α × β) :=
  match l with
  | [] => []
  | (k', v') :: rest => if k' = k then rest else (k', v') :: alErase rest k

/-- Python exceptions that the embedded operations can raise. -/
inductive PyErr : Type
  | valueError
  | typeError
  | keyError
deriving DecidableEq

instance {ε α : Type} [DecidableEq ε] [DecidableEq α] : DecidableEq (Except ε α) :=
  fun x y =>
    match x, y with
    | .ok a, .ok b =>
      if h : a = b then isTrue (h ▸ rfl) else isFalse (fun hc => h (Except.ok.inj hc))
    | .error e, .error f =>
      if h : e = f then isTrue (h ▸ rfl) else isFalse (fun hc => h (Except.error.inj hc))
    | .ok _, .error _ => isFalse (fun hc => Except.noConfusion hc)
    | .error _, .ok _ => isFalse (fun hc => Except.noConfusion hc)

/-- Python float division of nonnegative integers, as an exact rational
(`pyDiv a b = (a : ℚ) / b`, see `pyDiv_eq_div`; the sources only ever divide
where the denominator is positive). Stated via `mkRat` so that concrete
states evaluate by kernel reduction. -/
def pyDiv (num den : Nat) : ℚ := mkRat num den

/-- config.py: `DEFAULT_SEATS_PER_BUS = 50`. -/
def DEFAULT_SEATS_PER_BUS : Nat := 50

/-- config.py: `ALLOW_SAME_DAY_CANCELLATIONS = True`. -/
def ALLOW_SAME_DAY_CANCELLATIONS : Bool := true

/-- models.py `Bus`: one ledger's seat maps, partitioned by date.
`seatsByDate` maps a date to the holders of seats `1..totalSeats`
(positional: seat `s` at index `s - 1`). `reservationTime` and
`bookingConfirmed` are keyed by `(seat, date)` as in the source. -/
structure Bus where
  busId : Nat
  totalSeats : Nat
  seatsByDate : List (String × List (Option String))
  reservationTime : List ((Nat × String) × Nat)
  bookingConfirmed : List ((Nat × String) × Bool)
  status : String
deriving DecidableEq

namespace Bus

/-- models.py `Bus._ensure_date_exists`: lazily materialize the full seat map
for a date that is not yet present. -/
def ensure_date_exists (b : Bus) (date : String) : Bus :=
  if (alLookup b.seatsByDate date).isSome then b
  else { b with
    seatsByDate := b.seatsByDate ++ [(date, List.replicate b.totalSeats none)] }

/-- The row of holders for a date, `[]` if the date is unknown. -/
def row (b : Bus) (date : String) : List (Option String) :=
  (alLookup b.seatsByDate date).getD []

/-- models.py `Bus.get_available_seats`: materializes the date, then lists the
seat numbers with no holder, in ascending order (dict key order). Returns the
mutated bus as well. -/
def get_available_seats (b : Bus) (date : String) : List Nat × Bus :=
  let b' := b.ensure_date_exists date
  let r := b'.row date
  (((List.range r.length).filter (fun i => (r.getD i none).isNone)).map (· + 1), b')

/-- Number of held seats in one date's row (`client is not None` count). -/
def countBookedRow (r : List (Option String)) : Nat :=
  (r.filter Option.isSome).length

/-- Total held seat-dates of a ledger, over all recorded dates. -/
def totalBooked (b : Bus) : Nat :=
  (b.seatsByDate.map (fun p => countBookedRow p.2)).sum

/-- models.py `Bus.get_overall_load_factor`: booked seat-dates over
(capacity × number of recorded dates); `0` if no dates are recorded. -/
def get_overall_load_factor (b : Bus) : ℚ :=
  if b.seatsByDate = [] then 0
  else
    let total_capacity : Nat := b.seatsByDate.length * b.totalSeats
    if 0 < total_capacity then pyDiv b.totalBooked total_capacity else 0

/-- models.py `Bus.book_seat`: materialize the date, and when the seat number
is in range and free, record the holder, the reservation time and the
confirmed flag (default `true`, as in the source). -/
def book_seat (b : Bus) (seat_number : Nat) (client_id : String) (date : String)
    (now : Nat) (confirmed : Bool := true) : Bool × Bus :=
  let b' := b.ensure_date_exists date
  if 1 ≤ seat_number ∧ seat_number ≤ b'.totalSeats then
    let r := b'.row date
    if (r.getD (seat_number - 1) none).isNone then
      (true, { b' with
        seatsByDate := alSet b'.seatsByDate date (r.set (seat_number - 1) (some client_id)),
        reservationTime := alSet b'.reservationTime (seat_number, date) now,
        bookingConfirmed := alSet b'.bookingConfirmed (seat_number, date) confirmed })
    else (false, b')
  else (false, b')

/-- models.py `Bus.release_seat`: when the date is known and the seat number in
range, clear the holder slot and drop the `(seat, date)` bookkeeping, returning
`true` whether or not the seat was actually held; otherwise `false`. -/
def release_seat (b : Bus) (seat_number : Nat) (date : String) : Bool × Bus :=
  if (alLookup b.seatsByDate date).isSome ∧ 1 ≤ seat_number ∧ seat_number ≤ b.totalSeats then
    (true, { b with
      seatsByDate := alSet b.seatsByDate date ((b.row date).set (seat_number - 1) none),
      reservationTime := alErase b.reservationTime (seat_number, date),
      bookingConfirmed := alErase b.bookingConfirmed (seat_number, date) })
  else (false, b)

/-- models.py `Bus.is_seat_available`: materializes the date, then reads the
holder slot. A seat number outside `1..totalSeats` is a missing dict key: the
read raises `KeyError` (the date materialization persists regardless). -/
def is_seat_available (b : Bus) (seat_number : Nat) (date : String) :
    Except PyErr Bool × Bus :=
  let b' := b.ensure_date_exists date
  if 1 ≤ seat_number ∧ seat_number ≤ b'.totalSeats then
    (.ok (((b'.row date).getD (seat_number - 1) none).isNone), b')
  else (.error .keyError, b')

end Bus

/-- The dates recorded in a ledger, in insertion order. -/
def datesOf (b : Bus) : List String := b.seatsByDate.map Prod.fst

/-- A bus is well formed when every recorded date has a full row of
`totalSeats` holder slots (always true of the Python dicts, which are created
whole by `_ensure_date_exists`). -/
def busWF (b : Bus) : Prop :=
  ∀ p ∈ b.seatsByDate, (p.2 : List (Option String)).length = b.totalSeats

instance (b : Bus) : Decidable (busWF b) := by
  unfold busWF; infer_instance

/-- A new bus as created by autoscaling: `Bus(new_bus_id, route=...)` with the
default capacity. -/
def newBus (id : Nat) : Bus :=
  { busId := id, totalSeats := DEFAULT_SEATS_PER_BUS, seatsByDate := [],
    reservationTime := [], bookingConfirmed := [], status := "active" }

/-- One registry entry's payload (`booking_data` dict in booking_system.py;
`booking_time` is the timestamp the entry was written). -/
structure BookingData where
  client_id : String
  bus_id : Nat
  seat : Nat
  date : String
  booking_time : Nat
deriving DecidableEq

/-- booking_system.py `BusBookingSystem` plus the mirrored persistence tables.
`bookings_db` is the in-memory registry; `db_bookings` and `db_bus_seats`
mirror the gateway's `bookings` and `bus_seats` tables. -/
structure SystemState where
  buses : List Bus
  max_buses : Nat
  load_threshold_high : ℚ
  load_threshold_low : ℚ
  seat_lock_timeout : Nat
  visitor_count : Nat
  bookings_db : List (String × BookingData)
  db_bus_seats : List ((Nat × Nat × String) × String)
  db_bookings : List (String × BookingData)
deriving DecidableEq

namespace SystemState

/-- Python `self.buses[id]` (dict lookup; bus ids are the dict keys). -/
def getBus (st : SystemState) (id : Nat) : Option Bus :=
  st.buses.find? (fun b => b.busId == id)

/-- Write back a mutated bus object (in Python the object is shared by
reference; here every list entry with its id is replaced). -/
def setBus (st : SystemState) (b : Bus) : SystemState :=
  { st with buses := st.buses.map (fun x => if x.busId = b.busId then b else x) }

/-- The `(bus_id, seat, date)` triples of the in-memory registry, as used by
the DB cross-check in `get_overall_load_factor`. -/
def in_memory_triples (st : SystemState) : List (Nat × Nat × String) :=
  st.bookings_db.map (fun p => (p.2.bus_id, p.2.seat, p.2.date))

/-- booking_system.py `BusBookingSystem.get_overall_load_factor`: each active
bus adds its capacity once (not per date) to the denominator; the numerator
sums held seats over all dates, plus any gateway booking rows whose triple is
absent from the in-memory registry. -/
def get_overall_load_factor (st : SystemState) : ℚ :=
  let acc := st.buses.foldl
    (fun (acc : Nat × Nat) bus =>
      if bus.status = "active" then
        (acc.1 + bus.totalSeats,
         acc.2 + bus.seatsByDate.foldl (fun a p => a + Bus.countBookedRow p.2) 0)
      else acc) (0, 0)
  let db_only := st.db_bookings.filter
    (fun p => decide ((p.2.bus_id, p.2.seat, p.2.date) ∉ st.in_memory_triples))
  let total_booked := acc.2 + db_only.length
  if 0 < acc.1 then pyDiv total_booked acc.1 else 0

/-- One bus's pass of the expiry sweep: collect the `(seat, date)` keys whose
reservation is older than the timeout (in `reservation_time` insertion order),
then release each, keeping the ones actually released. Note the `confirmed`
flag is never consulted. -/
def sweep_bus (timeout now : Nat) (b : Bus) : Bus × List (Nat × String) :=
  let expired := ((b.reservationTime.filter (fun p => decide (timeout < now - p.2))).map Prod.fst)
  expired.foldl
    (fun (acc : Bus × List (Nat × String)) sd =>
      let (released, b') := acc.1.release_seat sd.1 sd.2
      (b', if released then acc.2 ++ [sd] else acc.2))
    (b, [])

/-- booking_system.py `BusBookingSystem.release_expired_reservations`: for
every active bus, release every reservation older than `seat_lock_timeout`
(confirmed or not) and delete the matching gateway seat rows; returns the
count of released seats. -/
def release_expired_reservations (st0 : SystemState) (now : Nat) :
    Nat × SystemState :=
  st0.buses.foldl
    (fun (acc : Nat × SystemState) b =>
      if b.status = "active" then
        let (b', rel) := sweep_bus acc.2.seat_lock_timeout now b
        let st' := acc.2.setBus b'
        let st'' := rel.foldl
          (fun s sd => { s with db_bus_seats := alErase s.db_bus_seats (b.busId, sd.1, sd.2) })
          st'
        (acc.1 + rel.length, st'')
      else acc)
    (0, st0)

/-- Append `cnt` new default-capacity buses, each with id
`max(existing ids) + 1` (or `current_bus_count` if the fleet is empty). -/
def addNewBuses (st : SystemState) (current_bus_count : Nat) : Nat → SystemState
  | 0 => st
  | n + 1 =>
    let newId := if st.buses = [] then current_bus_count
      else ((st.buses.map Bus.busId).foldl max 0) + 1
    addNewBuses { st with buses := st.buses ++ [newBus newId] } current_bus_count n

/-- booking_system.py `BusBookingSystem.add_buses_if_needed`: when the overall
load reaches the high threshold and the active fleet is below `max_buses`,
append up to two new buses. -/
def add_buses_if_needed (st : SystemState) : Nat × SystemState :=
  let current_load := st.get_overall_load_factor
  let current_bus_count := (st.buses.filter (fun b => b.status == "active")).length
  if st.load_threshold_high ≤ current_load ∧ current_bus_count < st.max_buses then
    let buses_to_add := min 2 (st.max_buses - current_bus_count)
    (buses_to_add, addNewBuses st current_bus_count buses_to_add)
  else (0, st)

end SystemState

/-- The distinct failure messages `book_seat_for_client` can return. -/
inductive BookFailure : Type
  | busNotFound      -- "Selected bus does not exist."
  | busNotActive     -- "Selected bus is not available."
  | alreadyBooked    -- "Seat ... is already booked."
deriving DecidableEq

/-- Result dict of `book_seat_for_client` (payload fields beyond these are
constants or echoes of the arguments). -/
inductive BookResult : Type
  | success (booking_id : String) (bus_id seat : Nat) (date : String)
  | failure (reason : BookFailure)
deriving DecidableEq

namespace SystemState

/-- booking_system.py `BusBookingSystem.book_seat_for_client`: count the
visitor, run the expiry sweep and the autoscale check, then require both
`preferred_bus` and `preferred_seat` (raising `ValueError` otherwise), check
the gateway seat table for the `(bus, seat, date)` row inside the atomic
transaction, insert the row and the booking record, and finally update the
in-memory bus and registry. The booking id is `BK-{bus}-{seat}-{date}`. -/
def book_seat_for_client (st0 : SystemState) (client_id travel_date : String)
    (preferred_bus preferred_seat : Option Nat) (now : Nat) :
    Except PyErr BookResult × SystemState :=
  let st1 := { st0 with visitor_count := st0.visitor_count + 1 }
  let st2 := (st1.release_expired_reservations now).2
  let st := (st2.add_buses_if_needed).2
  match preferred_bus, preferred_seat with
  | some pb, some ps =>
    match st.getBus pb with
    | none => (.ok (.failure .busNotFound), st)
    | some bus =>
      if bus.status = "active" then
        if (alLookup st.db_bus_seats (pb, ps, travel_date)).isSome then
          (.ok (.failure .alreadyBooked), st)
        else
          let booking_id := "BK-" ++ toString pb ++ "-" ++ toString ps ++ "-" ++ travel_date
          let bdata : BookingData :=
            { client_id := client_id, bus_id := pb, seat := ps,
              date := travel_date, booking_time := now }
          let stA := { st with
            db_bus_seats := alSet st.db_bus_seats (pb, ps, travel_date) client_id,
            db_bookings := alSet st.db_bookings booking_id bdata }
          let stB := stA.setBus (bus.book_seat ps client_id travel_date now).2
          let stC := { stB with bookings_db := alSet stB.bookings_db booking_id bdata }
          (.ok (.success booking_id pb ps travel_date), stC)
      else (.ok (.failure .busNotActive), st)
  | _, _ => (.error .valueError, st)

end SystemState

/-- Result dict of `cancel_booking` on its non-raising paths
(`{"success": bool, "message": ...}`; penalty/refund are constants under
`CANCELLATION_PENALTY = 0.0`). -/
inductive CancelResult : Type
  | cancelled
  | unauthorized     -- "Unauthorized cancellation attempt"
  | sameDayBlocked   -- "Same-day cancellations not allowed"
deriving DecidableEq

namespace SystemState

/-- booking_system.py `BusBookingSystem.cancel_booking`. The booking record
is fetched through the persistence gateway (`get_booking_by_id` — modelled
from the spec as a lookup of the mirrored bookings table; database.py does
not define the method). A missing record is Python `None`, and the very next
line subscripts it, raising `TypeError`. Otherwise: holder check, dead
same-day check (`ALLOW_SAME_DAY_CANCELLATIONS = True`), atomic deletion of
the two gateway rows, release of the in-memory seat, removal of the registry
entry. -/
def cancel_booking (st : SystemState) (booking_id client_id : String)
    (today : String) : Except PyErr CancelResult × SystemState :=
  match alLookup st.db_bookings booking_id with
  | none => (.error .typeError, st)
  | some booking =>
    if booking.client_id ≠ client_id then (.ok .unauthorized, st)
    else if booking.date = today ∧ ALLOW_SAME_DAY_CANCELLATIONS = false then
      (.ok .sameDayBlocked, st)
    else
      let st1 := { st with
        db_bookings := alErase st.db_bookings booking_id,
        db_bus_seats := alErase st.db_bus_seats (booking.bus_id, booking.seat, booking.date) }
      let st2 :=
        match st1.getBus booking.bus_id with
        | some bus => st1.setBus (bus.release_seat booking.seat booking.date).2
        | none => st1
      let st3 := { st2 with bookings_db := alErase st2.bookings_db booking_id }
      (.ok .cancelled, st3)

end SystemState

/-- admin.py `merge_buses`: stable insertion of a bus into a list sorted
ascending by `get_overall_load_factor` (an element with an equal load factor
keeps its earlier position, as Python's stable `sorted` does). -/
def insertByLoad (b : Bus) : List Bus → List Bus
  | [] => [b]
  | c :: cs =>
    if c.get_overall_load_factor ≤ b.get_overall_load_factor then c :: insertByLoad b cs
    else b :: c :: cs

/-- Python `sorted(active_buses, key=lambda b: b.get_load_factor())` — a stable
ascending sort by per-bus overall load factor. -/
def sortByLoad (l : List Bus) : List Bus :=
  l.foldl (fun acc b => insertByLoad b acc) []

/-- admin.py `_update_booking_after_merge`, registry part: rewrite the first
registry entry matching `(client_id, old_bus, old_seat, date)` to the new
`(bus_id, seat)` in place (the key is unchanged), returning the updated list
and the matched key/value. -/
def updateFirstMatch (l : List (String × BookingData)) (client_id : String)
    (old_bus old_seat : Nat) (date : String) (new_bus new_seat : Nat) :
    List (String × BookingData) × Option (String × BookingData) :=
  match l with
  | [] => ([], none)
  | (bid, bk) :: rest =>
    if bk.client_id = client_id ∧ bk.bus_id = old_bus ∧ bk.seat = old_seat ∧ bk.date = date then
      let bk' := { bk with bus_id := new_bus, seat := new_seat }
      ((bid, bk') :: rest, some (bid, bk'))
    else
      let (rest', m) := updateFirstMatch rest client_id old_bus old_seat date new_bus new_seat
      ((bid, bk) :: rest', m)

namespace SystemState

/-- admin.py `AdminOperations._update_booking_after_merge`: rewrite the first
matching registry entry's `(bus_id, seat)`, then mirror to the gateway
(save the booking, delete the old seat row, save the new one). -/
def update_booking_after_merge (st : SystemState) (client_id : String)
    (old_bus old_seat new_bus new_seat : Nat) (date : String) : SystemState :=
  let u := updateFirstMatch st.bookings_db client_id old_bus old_seat date new_bus new_seat
  match u.2 with
  | none => st
  | some (bid, bk') =>
    { st with
      bookings_db := u.1,
      db_bookings := alSet st.db_bookings bid bk',
      db_bus_seats := alSet (alErase st.db_bus_seats (old_bus, old_seat, date))
        (new_bus, new_seat, date) client_id }

/-- The target-selection loop of admin.py `merge_buses` for one held
`(seat, date, holder)`: walk the keep-buses in their sorted order; on the
first active one, try the same seat number (`is_seat_available`, which can
raise `KeyError` for an out-of-range seat), else fall back to that same
bus's lowest available seat; only a bus with no available seat at all is
passed over. Returns the landing `(bus_id, seat)` if any, with the state
threaded through every mutation (including the lazy date materializations of
the availability checks). -/
def tryTransfer (st : SystemState) (keepIds : List Nat) (seat_num : Nat)
    (date client_id : String) (now : Nat) :
    Except PyErr (Option (Nat × Nat) × SystemState) :=
  match keepIds with
  | [] => .ok (none, st)
  | k :: rest =>
    match st.getBus k with
    | none => tryTransfer st rest seat_num date client_id now
    | some target =>
      if target.status = "active" then
        let probe := target.is_seat_available seat_num date
        let st1 := st.setBus probe.2
        match probe.1 with
        | .error e => .error e
        | .ok true =>
          let bk := probe.2.book_seat seat_num client_id date now
          let st2 := st1.setBus bk.2
          if bk.1 then .ok (some (k, seat_num), st2)
          else tryTransfer st2 rest seat_num date client_id now
        | .ok false =>
          let av := probe.2.get_available_seats date
          let st2 := st1.setBus av.2
          match av.1.head? with
          | some new_seat =>
            let bk2 := av.2.book_seat new_seat client_id date now
            let st3 := st2.setBus bk2.2
            if bk2.1 then .ok (some (k, new_seat), st3)
            else tryTransfer st3 rest seat_num date client_id now
          | none => tryTransfer st2 rest seat_num date client_id now
      else tryTransfer st rest seat_num date client_id now

/-- The per-date inner loop of `merge_buses` over a snapshot of one date's
seat items (`list(date_seats.items())`, i.e. `(seat, holder)` pairs in
ascending seat order): transfer each held seat, rewrite its registry entry,
and clear the old seat on the source bus; an untransferable hold is only
logged. -/
def processSeats (st : SystemState) (sourceId : Nat) (keepIds : List Nat)
    (date : String) (now : Nat) :
    List (Nat × Option String) → Except PyErr SystemState
  | [] => .ok st
  | (seat_num, holder) :: rest =>
    match holder with
    | none => processSeats st sourceId keepIds date now rest
    | some client_id =>
      match tryTransfer st keepIds seat_num date client_id now with
      | .error e => .error e
      | .ok (none, st1) => processSeats st1 sourceId keepIds date now rest
      | .ok (some (newBusId, new_seat), st1) =>
        let st2 := st1.update_booking_after_merge client_id sourceId seat_num
          newBusId new_seat date
        let st3 :=
          match st2.getBus sourceId with
          | some src => st2.setBus (src.release_seat seat_num date).2
          | none => st2
        processSeats st3 sourceId keepIds date now rest

/-- Items of one date's row in dict order: `(seat, holder)` with seats
ascending from 1. -/
def seatItems (r : List (Option String)) : List (Nat × Option String) :=
  (List.range r.length).map (fun i => (i + 1, r.getD i none))

/-- The per-source-bus date loop of `merge_buses`, over a snapshot of
`seats_by_date.items()`. -/
def processDates (st : SystemState) (sourceId : Nat) (keepIds : List Nat)
    (now : Nat) : List (String × List (Option String)) → Except PyErr SystemState
  | [] => .ok st
  | (date, r) :: rest =>
    match processSeats st sourceId keepIds date now (seatItems r) with
    | .error e => .error e
    | .ok st' => processDates st' sourceId keepIds now rest

/-- One source bus's full merge pass: migrate every held seat of every
recorded date, then mark the bus `merged` and clear all its seat data. -/
def processSource (st : SystemState) (keepIds : List Nat) (now : Nat)
    (sourceId : Nat) : Except PyErr SystemState :=
  match st.getBus sourceId with
  | none => .ok st
  | some src =>
    match processDates st sourceId keepIds now src.seatsByDate with
    | .error e => .error e
    | .ok st' =>
      match st'.getBus sourceId with
      | none => .ok st'
      | some src' =>
        .ok (st'.setBus
          { src' with
            status := "merged", seatsByDate := [],
            reservationTime := [], bookingConfirmed := [] })

/-- The loop of `merge_buses` over all source buses. -/
def processSources (st : SystemState) (keepIds : List Nat) (now : Nat) :
    List Nat → Except PyErr SystemState
  | [] => .ok st
  | s :: rest =>
    match processSource st keepIds now s with
    | .error e => .error e
    | .ok st' => processSources st' keepIds now rest

end SystemState

/-- Result of `merge_buses` after a successful admin login. -/
inductive MergeResult : Type
  | success (merged_buses : List Nat) (new_bus_count : Nat)
  | loadTooHigh    -- "Load factor too high to merge"
deriving DecidableEq

namespace SystemState

/-- admin.py `AdminOperations.merge_buses`, the post-authentication body:
refuse when the overall load factor is at or above the low threshold;
otherwise stable-sort the active buses ascending by per-bus load factor,
merge the lower half into the upper half, and report the merged ids and the
kept count. -/
def merge_buses (st : SystemState) (now : Nat) :
    Except PyErr (MergeResult × SystemState) :=
  let active := st.buses.filter (fun b => b.status == "active")
  if st.load_threshold_low ≤ st.get_overall_load_factor then .ok (.loadTooHigh, st)
  else
    let sorted := sortByLoad active
    let toMerge := sorted.take (sorted.length / 2)
    let toKeep := sorted.drop (sorted.length / 2)
    match processSources st (toKeep.map Bus.busId) now (toMerge.map Bus.busId) with
    | .error e => .error e
    | .ok st' => .ok (.success (toMerge.map Bus.busId) toKeep.length, st')

end SystemState

/-- Who (if anyone) holds `(bus_id, seat, date)` in the in-memory ledgers. -/
def seatHeldBy (st : SystemState) (bus_id seat : Nat) (date : String) :
    Option String :=
  match st.getBus bus_id with
  | none => none
  | some b => (b.row date).getD (seat - 1) none

/-- The `(bus_id, seat, date)` triples of the registry are pairwise distinct
(the uniqueness invariant of the spec). -/
def registryTriplesUnique (st : SystemState) : Prop :=
  (st.bookings_db.map (fun p => (p.2.bus_id, p.2.seat, p.2.date))).Nodup

instance (st : SystemState) : Decidable (registryTriplesUnique st) := by
  unfold registryTriplesUnique; infer_instance

/-- A fresh system as built by the `BusBookingSystem` constructor over the
given buses, with thresholds as passed to the constructor (the concrete
states below use `low = 9/10`, `high = 1`, `timeout = 300`). -/
def mkSystem (buses : List Bus) : SystemState :=
  { buses := buses, max_buses := 100, load_threshold_high := 1,
    load_threshold_low := mkRat 9 10, seat_lock_timeout := 300,
    visitor_count := 0, bookings_db := [], db_bus_seats := [], db_bookings := [] }

/-- A bus holding a single confirmed, 400-second-old reservation:
seat 1 on date `"d"` held by `"A"`, reserved at `t = 0`, `confirmed = true`. -/
def c1Bus : Bus :=
  { busId := 0, totalSeats := 2,
    seatsByDate := [("d", [some "A", none])],
    reservationTime := [((1, "d"), 0)],
    bookingConfirmed := [((1, "d"), true)],
    status := "active" }

/-- A one-bus system carrying one booking by `"A"`:
`BK-0-1-2025-01-01` for bus 0, seat 1, date `"2025-01-01"`, made at `t = 0`. -/
def c6State : SystemState :=
  (SystemState.book_seat_for_client (mkSystem [newBus 0])
    "A" "2025-01-01" (some 0) (some 1) 0).2

/-- C2 counterexample fleet, kept half: bus 0 (capacity 2) completely full on
date `"d"` — seats held by `"P"` and `"Q"`. -/
def c2BusKeep : Bus :=
  { busId := 0, totalSeats := 2,
    seatsByDate := [("d", [some "P", some "Q"])],
    reservationTime := [((1, "d"), 0), ((2, "d"), 0)],
    bookingConfirmed := [((1, "d"), true), ((2, "d"), true)],
    status := "active" }

/-- C2 counterexample fleet, merged half: bus 1 (capacity 2) with one hold by
`"R"` on seat 1, date `"d"`. -/
def c2BusMerge : Bus :=
  { busId := 1, totalSeats := 2,
    seatsByDate := [("d", [some "R", none])],
    reservationTime := [((1, "d"), 0)],
    bookingConfirmed := [((1, "d"), true)],
    status := "active" }

/-- K = 3 live bookings, overall load 3/4 < 9/10 = lowLoadThreshold. Bus 1 is
the emptier half and gets merged; but the only keep bus is full on `"d"`. -/
def c2State : SystemState :=
  { mkSystem [c2BusKeep, c2BusMerge] with
    bookings_db :=
      [("BK-0-1-d", ⟨"P", 0, 1, "d", 0⟩), ("BK-0-2-d", ⟨"Q", 0, 2, "d", 0⟩),
       ("BK-1-1-d", ⟨"R", 1, 1, "d", 0⟩)],
    db_bookings :=
      [("BK-0-1-d", ⟨"P", 0, 1, "d", 0⟩), ("BK-0-2-d", ⟨"Q", 0, 2, "d", 0⟩),
       ("BK-1-1-d", ⟨"R", 1, 1, "d", 0⟩)],
    db_bus_seats := [((0, 1, "d"), "P"), ((0, 2, "d"), "Q"), ((1, 1, "d"), "R")] }

/-- The state after the C2 merge (total, by construction). -/
def c2Post : SystemState :=
  match c2State.merge_buses 0 with
  | .ok (_, st) => st
  | .error _ => c2State

/-- C7 counterexample fleet: the merge source, bus 0 (capacity 4), holding
only `(seat 2, "d")` for client `"C"`. -/
def c7BusSrc : Bus :=
  { busId := 0, totalSeats := 4,
    seatsByDate := [("d", [none, some "C", none, none])],
    reservationTime := [((2, "d"), 0)],
    bookingConfirmed := [((2, "d"), true)],
    status := "active" }

/-- First keep bus (capacity 2): seat 2 taken on `"d"`, seat 1 free. -/
def c7BusKeep1 : Bus :=
  { busId := 1, totalSeats := 2,
    seatsByDate := [("d", [none, some "X"])],
    reservationTime := [((2, "d"), 0)],
    bookingConfirmed := [((2, "d"), true)],
    status := "active" }

/-- Second keep bus (capacity 2): seat 2 free on `"d"` (its higher load comes
from date `"e"`). -/
def c7BusKeep2 : Bus :=
  { busId := 2, totalSeats := 2,
    seatsByDate := [("d", [some "Y", none]), ("e", [some "Z", some "W"])],
    reservationTime := [((1, "d"), 0), ((1, "e"), 0), ((2, "e"), 0)],
    bookingConfirmed := [((1, "d"), true), ((1, "e"), true), ((2, "e"), true)],
    status := "active" }

/-- Overall load 5/8 < 9/10; per-bus load factors 1/4 < 1/2 < 3/4, so bus 0
is merged and the keep order is [bus 1, bus 2]. -/
def c7State : SystemState :=
  { mkSystem [c7BusSrc, c7BusKeep1, c7BusKeep2] with
    bookings_db :=
      [("BK-0-2-d", ⟨"C", 0, 2, "d", 0⟩), ("BK-1-2-d", ⟨"X", 1, 2, "d", 0⟩),
       ("BK-2-1-d", ⟨"Y", 2, 1, "d", 0⟩), ("BK-2-1-e", ⟨"Z", 2, 1, "e", 0⟩),
       ("BK-2-2-e", ⟨"W", 2, 2, "e", 0⟩)],
    db_bookings :=
      [("BK-0-2-d", ⟨"C", 0, 2, "d", 0⟩), ("BK-1-2-d", ⟨"X", 1, 2, "d", 0⟩),
       ("BK-2-1-d", ⟨"Y", 2, 1, "d", 0⟩), ("BK-2-1-e", ⟨"Z", 2, 1, "e", 0⟩),
       ("BK-2-2-e", ⟨"W", 2, 2, "e", 0⟩)],
    db_bus_seats :=
      [((0, 2, "d"), "C"), ((1, 2, "d"), "X"), ((2, 1, "d"), "Y"),
       ((2, 1, "e"), "Z"), ((2, 2, "e"), "W")] }

/-- The state after the C7 merge (total, by construction). -/
def c7Post : SystemState :=
  match c7State.merge_buses 0 with
  | .ok (_, st) => st
  | .error _ => c7State

/-- An empty active bus with 3 seats, for the C3 trace. -/
def c3Bus (i : Nat) : Bus :=
  { busId := i, totalSeats := 3, seatsByDate := [], reservationTime := [],
    bookingConfirmed := [], status := "active" }

/-- C3 trace, step 0: two empty buses. -/
def c3S0 : SystemState := mkSystem [c3Bus 0, c3Bus 1]

/-- Step 1: `"X"` books bus 1 seat 1 for `"d"` at `t = 0` (`BK-1-1-d`). -/
def c3S1 : SystemState :=
  (c3S0.book_seat_for_client "X" "d" (some 1) (some 1) 0).2

/-- Step 2: `"X"` books bus 1 seat 2 for `"d"` at `t = 0` (`BK-1-2-d`). -/
def c3S2 : SystemState :=
  (c3S1.book_seat_for_client "X" "d" (some 1) (some 2) 0).2

/-- Step 3: `"C"` books bus 0 seat 1 for `"d"` at `t = 0` (`BK-0-1-d`). -/
def c3S3 : SystemState :=
  (c3S2.book_seat_for_client "C" "d" (some 0) (some 1) 0).2

/-- Step 4: the admin merges (load 1/2 < 9/10); bus 0 is emptier, so `"C"`'s
hold moves to bus 1 seat 3 and `BK-0-1-d` is rewritten to (bus 1, seat 3). -/
def c3S4 : SystemState :=
  match c3S3.merge_buses 0 with
  | .ok (_, st) => st
  | .error _ => c3S3

/-- Step 5: at `t = 400` (timeout 300), `"D"` books bus 1 seat 3 for `"d"`.
The book call first runs the expiry sweep, which releases every (confirmed)
hold on bus 1 — without touching the registry — and then hands the freed
seat 3 to `"D"` under the fresh id `BK-1-3-d`. -/
def c3S5 : SystemState :=
  (c3S4.book_seat_for_client "D" "d" (some 1) (some 3) 400).2

/-- Modelled from the spec (§4.2): the claimed overall load factor —
`totalBookedSeatDates / totalCapacityAcrossActiveLedgersAcrossDistinctDatesInUse`,
where each active ledger contributes capacity × (its distinct dates in use),
and a ledger with no recorded dates contributes zero to both sides. -/
def specOverallLoadFactor (st : SystemState) : ℚ :=
  let active := st.buses.filter (fun b => b.status == "active")
  let denom := (active.map (fun b => b.totalSeats * b.seatsByDate.length)).sum
  let booked := (active.map Bus.totalBooked).sum
  if 0 < denom then pyDiv booked denom else 0

/-- One active bus of capacity 2 with one held seat on each of two dates. -/
def c4Bus : Bus :=
  { busId := 0, totalSeats := 2,
    seatsByDate := [("x", [some "A", none]), ("y", [some "B", none])],
    reservationTime := [((1, "x"), 0), ((1, "y"), 0)],
    bookingConfirmed := [((1, "x"), true), ((1, "y"), true)],
    status := "active" }

/-- Total capacity of active buses, counted once per bus. -/
def activeCapacity (st : SystemState) : Nat :=
  ((st.buses.filter (fun b => b.status == "active")).map Bus.totalSeats).sum

/-- Held seat-dates over all active buses and all their dates. -/
def activeBooked (st : SystemState) : Nat :=
  ((st.buses.filter (fun b => b.status == "active")).map Bus.totalBooked).sum

/-- The gateway bookings table has no rows beyond the in-memory registry
(true whenever the mirror is in sync, as every live path keeps it). -/
def dbInSync (st : SystemState) : Prop :=
  ∀ p ∈ st.db_bookings, (p.2.bus_id, p.2.seat, p.2.date) ∈ st.in_memory_triples

instance (st : SystemState) : Decidable (dbInSync st) := by
  unfold dbInSync; infer_instance

/-- A bus of capacity 2 with date `"d"` materialized, seat 1 held by `"A"`
and seat 2 free. -/
def c8Bus : Bus :=
  { busId := 0, totalSeats := 2,
    seatsByDate := [("d", [some "A", none])],
    reservationTime := [((1, "d"), 5)],
    bookingConfirmed := [((1, "d"), true)],
    status := "active" }

/-- The holder of a seat on a ledger, read without materializing the date
(an unknown date means the seat is free). -/
def holderOn (b : Bus) (seat : Nat) (d : String) : Option String :=
  match alLookup b.seatsByDate d with
  | none => none
  | some r => r.getD (seat - 1) none

/-- A sequence of `Bus.book_seat` calls, all targeting the same
`(seat, date)`, one per listed client, in order; each call is the atomic
lock-protected critical section of `book_seat`, so any interleaving of `N`
concurrent claims is one of these sequences. Returns the per-call results and
the final bus. -/
def runClaims (b : Bus) (seat : Nat) (d : String) (now : Nat) :
    List String → List Bool × Bus
  | [] => ([], b)
  | c :: cs =>
    let step := b.book_seat seat c d now
    let rest := runClaims step.2 seat d now cs
    (step.1 :: rest.1, rest.2)

/-- The seat-row of a date after its lazy materialization. -/
def ensRow (b : Bus) (d : String) : List (Option String) :=
  (b.ensure_date_exists d).row d

/-- The free-seat numbers of a ledger on a date, as the lazily materialized
`get_available_seats` reports them (ascending). -/
def freeSeatsOn (b : Bus) (d : String) : List Nat :=
  (b.get_available_seats d).1

/-- Modelled from the amended claim: a transferred hold lands on the first
active keep-ledger (in keep order) that has any free seat for the date — on
the same seat number when that number is free there, otherwise on that same
ledger's lowest free seat number; only a keep-ledger with no free seat at
all is passed over. -/
def specPlacement (st : SystemState) (keepIds : List Nat) (seat_num : Nat)
    (date : String) : Option (Nat × Nat) :=
  match keepIds with
  | [] => none
  | k :: rest =>
    match st.getBus k with
    | none => specPlacement st rest seat_num date
    | some b =>
      if b.status = "active" ∧ freeSeatsOn b date ≠ [] then
        some (k, if seat_num ∈ freeSeatsOn b date then seat_num
                 else (freeSeatsOn b date).headD 0)
      else specPlacement st rest seat_num date

/-- The well-formedness a keep-ledger needs for the transfer loop not to
raise `KeyError`: if the id resolves, the bus is well formed and the
transferred seat number is within its range. -/
def keepOK (st : SystemState) (seat_num : Nat) (k : Nat) : Prop :=
  match st.getBus k with
  | some b => busWF b ∧ 1 ≤ seat_num ∧ seat_num ≤ b.totalSeats
  | none => True

instance (st : SystemState) (s k : Nat) : Decidable (keepOK st s k) := by
  unfold keepOK
  cases st.getBus k <;> infer_instance

/-- The post-transfer state of the C7 counterexample's hold, total by
construction. -/
def c7TT : SystemState :=
  match SystemState.tryTransfer c7State [1, 2] 2 "d" "C" 0 with
  | .ok (_, st) => st
  | .error _ => c7State

/-- The cleared merged-source ledger of the C2 counterexample. -/
def c2MergedBus : Bus :=
  { busId := 1, totalSeats := 2, seatsByDate := [], reservationTime := [],
    bookingConfirmed := [], status := "merged" }

/-! ## Theorems -/

theorem pyDiv_eq_div (num den : Nat) : pyDiv num den = (num : ℚ) / (den : ℚ) := by
  simp [pyDiv, Rat.mkRat_eq_div]

/-- C1: the claim says the expiry sweep releases an over-age hold only if its
confirmed flag is false. The code's sweep never consults the flag: on a bus
whose only hold is confirmed and 400 s old (timeout 300 s), the sweep
releases it — the released count is 1 and the seat is left free. The claim
is right about the intent (the spec and the commented-out predecessor of
`release_expired_reservations` both say confirmed bookings must not be
auto-released); the shipped loop dropped the check. -/
theorem expiry_sweep_releases_confirmed_hold :
    alLookup c1Bus.bookingConfirmed (1, "d") = some true ∧
    (SystemState.release_expired_reservations (mkSystem [c1Bus]) 400).1 = 1 ∧
    seatHeldBy (SystemState.release_expired_reservations (mkSystem [c1Bus]) 400).2 0 1 "d"
      = none := by decide

/-- C5: the claim says a `book` call without a preferred bus/seat falls back
to scanning the ledgers. The shipped `book_seat_for_client` instead raises
`ValueError("Both preferred_bus and preferred_seat are required.")` whenever
either argument is missing; the scanning helper `_try_book_on_bus` is never
called. The repository's own tests (`test_system.py::test_book_seat`) call
`book_seat_for_client("client1", "2025-10-04")` with no bus/seat and assert
success, so the code contradicts its tests. -/
theorem book_missing_preferred_raises :
    (SystemState.book_seat_for_client (mkSystem [newBus 0])
      "client1" "2025-10-04" none none 0).1 = .error .valueError ∧
    (SystemState.book_seat_for_client (mkSystem [newBus 0])
      "client1" "2025-10-04" (some 0) none 0).1 = .error .valueError := by decide

/-- C6: the claim says `cancel` always returns a structured result, with a
`NotFound` failure for an unknown bookingId. The code fetches the record and
immediately subscripts it (`booking["client_id"]`) with no `None` check, so
an unknown bookingId raises `TypeError` out of `cancel_booking`. The
`Unauthorized` and success paths do behave as claimed. -/
theorem cancel_unknown_id_raises :
    (SystemState.cancel_booking c6State "BK-missing" "A" "2025-02-01").1
      = .error .typeError ∧
    (SystemState.cancel_booking c6State "BK-0-1-2025-01-01" "B" "2025-02-01").1
      = .ok .unauthorized ∧
    (SystemState.cancel_booking c6State "BK-0-1-2025-01-01" "A" "2025-02-01").1
      = .ok .cancelled := by decide

/-- C2: the claim says that under the low-load precondition every registry
booking survives a merge resolvable — pointing at a seat its holder actually
holds on a kept ledger. Here the merge completes "successfully", but `"R"`'s
hold could not be placed (the only keep bus is full on `"d"`), the source
bus's seat data is cleared anyway, and the registry entry `BK-1-1-d` is left
dangling: it still points at bus 1 seat 1, which is held by nobody. -/
theorem merge_orphans_unplaceable_booking :
    c2State.merge_buses 0 = .ok (.success [1] 1, c2Post) ∧
    alLookup c2Post.bookings_db "BK-1-1-d" = some ⟨"R", 1, 1, "d", 0⟩ ∧
    seatHeldBy c2Post 1 1 "d" = none ∧
    seatHeldBy c2Post 0 1 "d" = some "P" ∧
    seatHeldBy c2Post 0 2 "d" = some "Q" := by decide

/-- C7: the claim says a transferred hold keeps its seat number on the first
keep-ledger where that number is free (here seat 2 is free on keep bus 2),
and only if no keep-ledger has it free does it take the lowest free seat.
The code instead settles on the *first* keep bus that has any free seat:
`"C"`'s hold on seat 2 lands on keep bus 1 seat 1 (seat 2 there is taken,
seat 1 is its lowest free seat), even though keep bus 2 had seat 2 free, and
the registry entry is rewritten to (bus 1, seat 1). -/
theorem merge_prefers_first_bus_over_same_seat :
    c7State.merge_buses 0 = .ok (.success [0] 2, c7Post) ∧
    seatHeldBy c7Post 1 1 "d" = some "C" ∧
    seatHeldBy c7Post 2 2 "d" = none ∧
    alLookup c7Post.bookings_db "BK-0-2-d" = some ⟨"C", 1, 1, "d", 0⟩ := by decide

/-- C3: the claim says no two registry bookings ever share a
(busId, seat, date) triple in any reachable state. The book → merge → sweep →
book trace above ends with `BK-0-1-d` (rewritten by the merge to bus 1 seat
3, client `"C"`) and `BK-1-3-d` (client `"D"`) both live in the registry with
the same triple (1, 3, "d"). The invariant is the spec's (and the
registry-rewriting merge relies on it); it is broken because the expiry
sweep auto-releases confirmed bookings and leaves their registry entries
behind. -/
theorem registry_triple_uniqueness_violated :
    c3S3.merge_buses 0 = .ok (.success [0] 1, c3S4) ∧
    (c3S4.book_seat_for_client "D" "d" (some 1) (some 3) 400).1
      = .ok (.success "BK-1-3-d" 1 3 "d") ∧
    alLookup c3S5.bookings_db "BK-0-1-d" = some ⟨"C", 1, 3, "d", 0⟩ ∧
    alLookup c3S5.bookings_db "BK-1-3-d" = some ⟨"D", 1, 3, "d", 400⟩ ∧
    ¬ registryTriplesUnique c3S5 := by decide

/-- C4: the claim says the system-wide load factor divides by capacity ×
distinct-dates-in-use per active ledger. The code's
`BusBookingSystem.get_overall_load_factor` adds each active bus's capacity
once ("Each active bus adds once (not per date)"): with one bus of capacity
2 and one held seat on each of two dates the code reports 2/2 = 1 while the
claimed formula gives 2/4 = 1/2. -/
theorem overall_load_counts_capacity_once :
    SystemState.get_overall_load_factor (mkSystem [c4Bus]) = 1 ∧
    specOverallLoadFactor (mkSystem [c4Bus]) = mkRat 1 2 ∧
    SystemState.get_overall_load_factor (mkSystem [c4Bus])
      ≠ specOverallLoadFactor (mkSystem [c4Bus]) := by decide

theorem foldl_add_eq_sum {α : Type} (g : α → Nat) (l : List α) (a : Nat) :
    l.foldl (fun acc p => acc + g p) a = a + (l.map g).sum := by
  induction l generalizing a with
  | nil => simp
  | cons x xs ih => simp [ih, Nat.add_assoc]

theorem load_factor_foldl_eq (l : List Bus) (a c : Nat) :
    l.foldl
      (fun (acc : Nat × Nat) bus =>
        if bus.status = "active" then
          (acc.1 + bus.totalSeats,
           acc.2 + bus.seatsByDate.foldl (fun x p => x + Bus.countBookedRow p.2) 0)
        else acc) (a, c)
      = (a + ((l.filter (fun b => b.status == "active")).map Bus.totalSeats).sum,
         c + ((l.filter (fun b => b.status == "active")).map Bus.totalBooked).sum) := by
  induction l generalizing a c with
  | nil => simp
  | cons x xs ih =>
    by_cases hx : x.status = "active"
    · simp only [List.foldl_cons, hx, if_pos, List.filter_cons,
        show (x.status == "active") = true by simpa using hx, if_true,
        List.map_cons, List.sum_cons]
      rw [ih, foldl_add_eq_sum]
      simp [Bus.totalBooked, Nat.add_assoc]
    · simp only [List.foldl_cons, hx, if_neg, List.filter_cons,
        show (x.status == "active") = false by simpa using hx]
      rw [ih]
      simp

/-- C4 (amended): the system-wide overall load factor is
`totalBookedSeatDates / (sum of capacities of Active ledgers, each counted
once, however many dates it has in use — a date-less active ledger still
contributes its full capacity)`, plus any gateway-only booking rows in the
numerator — zero whenever the mirror is in sync; 0 if there is no active
capacity. -/
theorem overall_load_factor_formula (st : SystemState) (h : dbInSync st) :
    st.get_overall_load_factor =
      if 0 < activeCapacity st then pyDiv (activeBooked st) (activeCapacity st)
      else 0 := by
  unfold SystemState.get_overall_load_factor
  have hfold := load_factor_foldl_eq st.buses 0 0
  rw [hfold]
  have hdb : st.db_bookings.filter
      (fun p => decide ((p.2.bus_id, p.2.seat, p.2.date) ∉ st.in_memory_triples)) = [] := by
    rw [List.filter_eq_nil_iff]
    intro p hp
    simpa using h p hp
  rw [hdb]
  simp [activeCapacity, activeBooked]

/-- Witness for `overall_load_factor_formula`: the one-booking system
`c6State` has a synced mirror and active capacity 50. -/
theorem overall_load_factor_formula_witness :
    dbInSync c6State ∧
    c6State.get_overall_load_factor =
      if 0 < activeCapacity c6State then pyDiv (activeBooked c6State) (activeCapacity c6State)
      else 0 :=
  ⟨by decide, overall_load_factor_formula c6State (by decide)⟩

theorem alSet_of_lookup_eq {α β : Type} [DecidableEq α] (l : List (α × β))
    (k : α) (v : β) (h : alLookup l k = some v) : alSet l k v = l := by
  induction l with
  | nil => simp [alLookup] at h
  | cons p rest ih =>
    obtain ⟨k', v'⟩ := p
    by_cases hk : k' = k
    · subst hk
      have hv : v' = v := by simpa [alLookup] using h
      subst hv
      simp [alSet]
    · simp only [alLookup, if_neg hk] at h
      simp [alSet, hk, ih h]

theorem alErase_of_lookup_none {α β : Type} [DecidableEq α] (l : List (α × β))
    (k : α) (h : alLookup l k = none) : alErase l k = l := by
  induction l with
  | nil => rfl
  | cons p rest ih =>
    obtain ⟨k', v'⟩ := p
    by_cases hk : k' = k
    · subst hk; simp [alLookup] at h
    · simp only [alLookup, if_neg hk] at h
      simp [alErase, hk, ih h]

theorem alLookup_alSet_self {α β : Type} [DecidableEq α] (l : List (α × β))
    (k : α) (v : β) : alLookup (alSet l k v) k = some v := by
  induction l with
  | nil => simp [alSet, alLookup]
  | cons p rest ih =>
    obtain ⟨k', v'⟩ := p
    by_cases hk : k' = k
    · subst hk; simp [alSet, alLookup]
    · simp [alSet, alLookup, hk, ih]

theorem alSet_alSet {α β : Type} [DecidableEq α] (l : List (α × β))
    (k : α) (v w : β) : alSet (alSet l k v) k w = alSet l k w := by
  induction l with
  | nil => simp [alSet]
  | cons p rest ih =>
    obtain ⟨k', v'⟩ := p
    by_cases hk : k' = k
    · subst hk; simp [alSet]
    · simp [alSet, hk, ih]

theorem alLookup_none_of_not_mem {α β : Type} [DecidableEq α]
    (l : List (α × β)) (k : α) (h : k ∉ l.map Prod.fst) : alLookup l k = none := by
  induction l with
  | nil => rfl
  | cons p rest ih =>
    obtain ⟨k', v'⟩ := p
    simp only [List.map_cons, List.mem_cons] at h
    push_neg at h
    have hk : ¬ k' = k := fun he => h.1 he.symm
    simp [alLookup, hk, ih h.2]

theorem alLookup_alErase_self {α β : Type} [DecidableEq α] (l : List (α × β))
    (k : α) (h : (l.map Prod.fst).Nodup) : alLookup (alErase l k) k = none := by
  induction l with
  | nil => rfl
  | cons p rest ih =>
    obtain ⟨k', v'⟩ := p
    simp only [List.map_cons, List.nodup_cons] at h
    by_cases hk : k' = k
    · subst hk
      simpa [alErase] using alLookup_none_of_not_mem rest k' h.1
    · simp [alErase, alLookup, hk, ih h.2]

theorem set_eq_self_of_get? {α : Type} (l : List α) (i : Nat) (v : α)
    (h : l.get? i = some v) : l.set i v = l := by
  induction l generalizing i with
  | nil => simp at h
  | cons x xs ih =>
    cases i with
    | zero =>
      simp only [List.get?_cons_zero, Option.some.injEq] at h
      simp [h]
    | succ n =>
      simp only [List.get?_cons_succ] at h
      simp [ih n h]

/-- C8: the claim says releasing an already-free seat is a no-op returning
`false`. On a bus whose date is materialized, releasing the free in-range
seat 2 leaves the state unchanged but returns `true`, refuting the claimed
return value. -/
theorem release_free_seat_returns_true :
    c8Bus.release_seat 2 "d" = (true, c8Bus) := by decide

/-- C8 (amended): releasing an already-free in-range seat on a date known to
the ledger (with no reservation bookkeeping left for it) leaves the ledger's
state unchanged but returns `true`, not `false` as claimed; and release is
idempotent: releasing twice equals releasing once, in both return value and
state. The dict-key `Nodup` hypotheses are invariants of the Python dicts. -/
theorem release_seat_noop_and_idempotent (b : Bus) (seat : Nat) (d : String)
    (hrtN : (b.reservationTime.map Prod.fst).Nodup)
    (hbcN : (b.bookingConfirmed.map Prod.fst).Nodup) :
    (∀ r, alLookup b.seatsByDate d = some r → r.get? (seat - 1) = some none →
      1 ≤ seat → seat ≤ b.totalSeats →
      alLookup b.reservationTime (seat, d) = none →
      alLookup b.bookingConfirmed (seat, d) = none →
      b.release_seat seat d = (true, b)) ∧
    (b.release_seat seat d).2.release_seat seat d = b.release_seat seat d := by
  constructor
  · intro r hd hfree h1 h2 hrt hbc
    unfold Bus.release_seat
    rw [if_pos ⟨by simp [hd], h1, h2⟩]
    rw [alErase_of_lookup_none _ _ hrt, alErase_of_lookup_none _ _ hbc]
    have hrow : b.row d = r := by simp [Bus.row, hd]
    rw [hrow, set_eq_self_of_get? r _ _ hfree, alSet_of_lookup_eq _ _ _ hd]
  · by_cases hc : (alLookup b.seatsByDate d).isSome ∧ 1 ≤ seat ∧ seat ≤ b.totalSeats
    · have h1 : b.release_seat seat d = (true,
          { b with
            seatsByDate := alSet b.seatsByDate d ((b.row d).set (seat - 1) none),
            reservationTime := alErase b.reservationTime (seat, d),
            bookingConfirmed := alErase b.bookingConfirmed (seat, d) }) := by
        unfold Bus.release_seat
        rw [if_pos hc]
      rw [h1]
      have hlk : alLookup
          (alSet b.seatsByDate d ((b.row d).set (seat - 1) none)) d
          = some ((b.row d).set (seat - 1) none) := alLookup_alSet_self _ _ _
      unfold Bus.release_seat
      rw [if_pos (by exact ⟨by simp [hlk], hc.2.1, hc.2.2⟩)]
      have e1 : alSet (alSet b.seatsByDate d ((b.row d).set (seat - 1) none)) d
          ((Bus.row { b with
            seatsByDate := alSet b.seatsByDate d ((b.row d).set (seat - 1) none),
            reservationTime := alErase b.reservationTime (seat, d),
            bookingConfirmed := alErase b.bookingConfirmed (seat, d) } d).set (seat - 1) none)
          = alSet b.seatsByDate d ((b.row d).set (seat - 1) none) := by
        have hrow1 : Bus.row { b with
            seatsByDate := alSet b.seatsByDate d ((b.row d).set (seat - 1) none),
            reservationTime := alErase b.reservationTime (seat, d),
            bookingConfirmed := alErase b.bookingConfirmed (seat, d) } d
            = (b.row d).set (seat - 1) none := by
          show (alLookup (alSet b.seatsByDate d ((b.row d).set (seat - 1) none)) d).getD []
              = (b.row d).set (seat - 1) none
          rw [alLookup_alSet_self]
          rfl
        rw [hrow1, List.set_set, alSet_alSet]
      have e2 : alErase (alErase b.reservationTime (seat, d)) (seat, d)
          = alErase b.reservationTime (seat, d) :=
        alErase_of_lookup_none _ _ (alLookup_alErase_self _ _ hrtN)
      have e3 : alErase (alErase b.bookingConfirmed (seat, d)) (seat, d)
          = alErase b.bookingConfirmed (seat, d) :=
        alErase_of_lookup_none _ _ (alLookup_alErase_self _ _ hbcN)
      simp only [e1, e2, e3]
    · have h1 : b.release_seat seat d = (false, b) := by
        unfold Bus.release_seat
        rw [if_neg hc]
      rw [h1]
      exact h1

/-- Witness for `release_seat_noop_and_idempotent` at `c8Bus`, seat 2. -/
theorem release_seat_noop_and_idempotent_witness :
    c8Bus.release_seat 2 "d" = (true, c8Bus) ∧
    (c8Bus.release_seat 2 "d").2.release_seat 2 "d" = c8Bus.release_seat 2 "d" :=
  ⟨(release_seat_noop_and_idempotent c8Bus 2 "d" (by decide) (by decide)).1
      [some "A", none] (by decide) (by decide) (by decide) (by decide)
      (by decide) (by decide),
   (release_seat_noop_and_idempotent c8Bus 2 "d" (by decide) (by decide)).2⟩

theorem ensure_of_isSome (b : Bus) (d : String)
    (h : (alLookup b.seatsByDate d).isSome) : b.ensure_date_exists d = b := by
  unfold Bus.ensure_date_exists
  rw [if_pos h]

theorem alLookup_append_right {α β : Type} [DecidableEq α] (l : List (α × β))
    (k : α) (v : β) (h : alLookup l k = none) :
    alLookup (l ++ [(k, v)]) k = some v := by
  induction l with
  | nil => simp [alLookup]
  | cons p rest ih =>
    obtain ⟨k', v'⟩ := p
    by_cases hk : k' = k
    · subst hk; simp [alLookup] at h
    · simp only [alLookup, if_neg hk] at h
      simpa [alLookup, hk] using ih h

theorem alLookup_mem {α β : Type} [DecidableEq α] (l : List (α × β)) (k : α)
    (v : β) (h : alLookup l k = some v) : (k, v) ∈ l := by
  induction l with
  | nil => simp [alLookup] at h
  | cons p rest ih =>
    obtain ⟨k', v'⟩ := p
    by_cases hk : k' = k
    · subst hk
      have hv : v' = v := by simpa [alLookup] using h
      simp [hv]
    · simp only [alLookup, if_neg hk] at h
      simp [ih h]

theorem set_getD_self {α : Type} (l : List α) (i : Nat) (v d0 : α)
    (h : i < l.length) : (l.set i v).getD i d0 = v := by
  induction l generalizing i with
  | nil => simp at h
  | cons x xs ih =>
    cases i with
    | zero => simp [List.getD]
    | succ n =>
      simp only [List.length_cons, Nat.succ_lt_succ_iff] at h
      simpa [List.getD] using ih n h

theorem getD_replicate_none (n i : Nat) :
    (List.replicate n (none : Option String)).getD i none = none := by
  induction n generalizing i with
  | zero => simp [List.getD]
  | succ m ih =>
    cases i with
    | zero => simp [List.replicate, List.getD]
    | succ j =>
      rw [List.replicate_succ]
      exact ih j

/-- A claim on a seat someone already holds fails and leaves the bus
unchanged. -/
theorem book_seat_stuck (b : Bus) (seat : Nat) (c d : String) (now : Nat)
    (r : List (Option String)) (hd : alLookup b.seatsByDate d = some r)
    (hocc : (r.getD (seat - 1) none).isSome) :
    b.book_seat seat c d now = (false, b) := by
  unfold Bus.book_seat
  rw [ensure_of_isSome b d (by simp [hd])]
  by_cases hrange : 1 ≤ seat ∧ seat ≤ b.totalSeats
  · rw [if_pos hrange]
    have hrow : b.row d = r := by simp [Bus.row, hd]
    rw [hrow, if_neg (by
      rcases Option.isSome_iff_exists.mp hocc with ⟨y, hy⟩
      rw [hy]
      simp)]
  · rw [if_neg hrange]

/-- A claim on a free, in-range seat of a well-formed bus succeeds and
records the claimant as the holder. -/
theorem book_seat_free (b : Bus) (seat : Nat) (d c : String) (now : Nat)
    (hwf : busWF b) (h1 : 1 ≤ seat) (h2 : seat ≤ b.totalSeats)
    (hfree : holderOn b seat d = none) :
    (b.book_seat seat c d now).1 = true ∧
    holderOn (b.book_seat seat c d now).2 seat d = some c := by
  have hseat : seat - 1 < b.totalSeats := by omega
  cases hdl : alLookup b.seatsByDate d with
  | none =>
    have hens : b.ensure_date_exists d
        = { b with seatsByDate :=
            b.seatsByDate ++ [(d, List.replicate b.totalSeats none)] } := by
      unfold Bus.ensure_date_exists
      rw [if_neg (by simp [hdl])]
    have hlk := alLookup_append_right b.seatsByDate d
      (List.replicate b.totalSeats none) hdl
    unfold Bus.book_seat
    rw [hens, if_pos ⟨h1, h2⟩]
    have hrow : Bus.row { b with seatsByDate :=
        b.seatsByDate ++ [(d, List.replicate b.totalSeats none)] } d
        = List.replicate b.totalSeats none := by
      simp [Bus.row, hlk]
    rw [hrow, if_pos (by simp [getD_replicate_none])]
    refine ⟨rfl, ?_⟩
    show holderOn _ seat d = some c
    unfold holderOn
    rw [show alLookup (alSet (b.seatsByDate ++ [(d, List.replicate b.totalSeats none)]) d
        ((List.replicate b.totalSeats none).set (seat - 1) (some c))) d
        = some ((List.replicate b.totalSeats none).set (seat - 1) (some c))
      from alLookup_alSet_self _ _ _]
    exact set_getD_self _ _ _ _ (by simpa using hseat)
  | some r =>
    have hrlen : r.length = b.totalSeats := hwf (d, r) (alLookup_mem _ _ _ hdl)
    have hfree' : r.getD (seat - 1) none = none := by
      unfold holderOn at hfree
      rw [hdl] at hfree
      exact hfree
    unfold Bus.book_seat
    rw [ensure_of_isSome b d (by simp [hdl])]
    rw [if_pos ⟨h1, h2⟩]
    have hrow : b.row d = r := by simp [Bus.row, hdl]
    rw [hrow, if_pos (by rw [hfree']; rfl)]
    refine ⟨rfl, ?_⟩
    show holderOn _ seat d = some c
    unfold holderOn
    rw [show alLookup (alSet b.seatsByDate d (r.set (seat - 1) (some c))) d
        = some (r.set (seat - 1) (some c)) from alLookup_alSet_self _ _ _]
    exact set_getD_self _ _ _ _ (by omega)

/-- Once someone holds the seat, every further claim fails and changes
nothing. -/
theorem runClaims_occupied (b : Bus) (seat : Nat) (d : String) (now : Nat)
    (cs : List String) (x : String) (hocc : holderOn b seat d = some x) :
    runClaims b seat d now cs = (List.replicate cs.length false, b) := by
  induction cs with
  | nil => rfl
  | cons c rest ih =>
    obtain ⟨r, hd, hx⟩ : ∃ r, alLookup b.seatsByDate d = some r ∧
        r.getD (seat - 1) none = some x := by
      unfold holderOn at hocc
      cases hdl : alLookup b.seatsByDate d with
      | none => rw [hdl] at hocc; exact absurd hocc (by simp)
      | some r => rw [hdl] at hocc; exact ⟨r, rfl, hocc⟩
    have hstuck := book_seat_stuck b seat c d now r hd (by rw [hx]; rfl)
    simp [runClaims, hstuck, ih, List.replicate_succ]

/-- C9: any interleaving of `N ≥ 2` claims for the same explicit
`(seat, date)` — modelled as the per-claim atomic critical sections executing
in an arbitrary order, here the list order of an arbitrary client list —
yields exactly one success (the first claim) and `N − 1` failures, and the
seat ends up held by exactly the one winner. -/
theorem concurrent_same_seat_one_success (b : Bus) (seat : Nat) (d : String)
    (now : Nat) (clients : List String) (hwf : busWF b)
    (hlen : 2 ≤ clients.length) (h1 : 1 ≤ seat) (h2 : seat ≤ b.totalSeats)
    (hfree : holderOn b seat d = none) :
    (runClaims b seat d now clients).1
      = true :: List.replicate (clients.length - 1) false ∧
    holderOn (runClaims b seat d now clients).2 seat d = clients.head? := by
  cases clients with
  | nil => simp at hlen
  | cons c cs =>
    have hbk := book_seat_free b seat d c now hwf h1 h2 hfree
    have hocc := runClaims_occupied (b.book_seat seat c d now).2 seat d now cs c hbk.2
    refine ⟨?_, ?_⟩
    · simp [runClaims, hocc, hbk.1]
    · simp [runClaims, hocc, hbk.2]

/-- Witness for `concurrent_same_seat_one_success`: two clients race for
seat 1 of a fresh default bus; the first wins. -/
theorem concurrent_same_seat_one_success_witness :
    (runClaims (newBus 0) 1 "d" 0 ["p", "q"]).1 = [true, false] ∧
    holderOn (runClaims (newBus 0) 1 "d" 0 ["p", "q"]).2 1 "d" = some "p" :=
  concurrent_same_seat_one_success (newBus 0) 1 "d" 0 ["p", "q"]
    (by decide) (by decide) (by decide) (by decide) (by decide)

theorem ensure_fresh (b : Bus) (d : String)
    (h : alLookup b.seatsByDate d = none) :
    b.ensure_date_exists d
      = { b with seatsByDate :=
          b.seatsByDate ++ [(d, List.replicate b.totalSeats none)] } := by
  unfold Bus.ensure_date_exists
  rw [if_neg (by simp [h])]

theorem ensure_totalSeats (b : Bus) (d : String) :
    (b.ensure_date_exists d).totalSeats = b.totalSeats := by
  unfold Bus.ensure_date_exists
  split <;> rfl

theorem is_seat_available_snd (b : Bus) (s : Nat) (d : String) :
    (b.is_seat_available s d).2 = b.ensure_date_exists d := by
  simp only [Bus.is_seat_available]
  split <;> rfl

theorem countBookedRow_replicate_none (n : Nat) :
    Bus.countBookedRow (List.replicate n none) = 0 := by
  induction n with
  | zero => rfl
  | succ m ih =>
    rw [List.replicate_succ]
    simp only [Bus.countBookedRow, List.filter_cons] at ih ⊢
    simp only [Option.isSome_none, Bool.false_eq_true, if_false]
    exact ih

theorem pyDiv_lt_pyDiv (a d1 d2 : Nat) (ha : 0 < a) (hd1 : 0 < d1)
    (h : d1 < d2) : pyDiv a d2 < pyDiv a d1 := by
  rw [pyDiv_eq_div, pyDiv_eq_div]
  apply div_lt_div_of_pos_left
  · exact_mod_cast ha
  · exact_mod_cast hd1
  · exact_mod_cast h

/-- C10: on a date the ledger has never seen, the read-only queries
`is_seat_available` and `get_available_seats`, and even a failed
out-of-range `book_seat`, all materialize the full seat map for that date —
adding the date to the ledger's known dates — and thereby strictly lower the
ledger's `get_overall_load_factor` whenever it has any held seat, although
no seat was claimed. -/
theorem lazy_materialization_frame_effect (b : Bus) (d : String) (s : Nat)
    (c : String) (now : Nat) (hfresh : alLookup b.seatsByDate d = none) :
    datesOf (b.is_seat_available s d).2 = datesOf b ++ [d] ∧
    datesOf (b.get_available_seats d).2 = datesOf b ++ [d] ∧
    (¬ (1 ≤ s ∧ s ≤ b.totalSeats) →
      b.book_seat s c d now = (false, b.ensure_date_exists d)) ∧
    (0 < b.totalBooked → 0 < b.totalSeats →
      (b.is_seat_available s d).2.get_overall_load_factor
        < b.get_overall_load_factor) := by
  have hdates : datesOf (b.ensure_date_exists d) = datesOf b ++ [d] := by
    rw [ensure_fresh b d hfresh]
    simp [datesOf]
  refine ⟨?_, ?_, ?_, ?_⟩
  · rw [is_seat_available_snd]
    exact hdates
  · show datesOf (b.ensure_date_exists d) = datesOf b ++ [d]
    exact hdates
  · intro hrange
    unfold Bus.book_seat
    rw [if_neg (by rw [ensure_totalSeats]; exact hrange)]
  · intro hbooked hcap
    rw [is_seat_available_snd, ensure_fresh b d hfresh]
    have hsd : b.seatsByDate ≠ [] := by
      intro hnil
      rw [Bus.totalBooked, hnil] at hbooked
      simp at hbooked
    have hbooked' : Bus.totalBooked
        { b with seatsByDate :=
          b.seatsByDate ++ [(d, List.replicate b.totalSeats none)] }
        = b.totalBooked := by
      simp [Bus.totalBooked, countBookedRow_replicate_none]
    have hlen : 1 ≤ b.seatsByDate.length := by
      cases hsb : b.seatsByDate with
      | nil => exact absurd hsb hsd
      | cons p rest => simp
    unfold Bus.get_overall_load_factor
    rw [if_neg (by simp), if_neg hsd]
    simp only [hbooked', List.length_append, List.length_cons, List.length_nil]
    rw [if_pos (by positivity), if_pos (Nat.mul_pos hlen hcap)]
    apply pyDiv_lt_pyDiv
    · exact hbooked
    · exact Nat.mul_pos hlen hcap
    · have : b.seatsByDate.length < b.seatsByDate.length + 1 := by omega
      exact Nat.mul_lt_mul_of_lt_of_le this (Nat.le_refl _) hcap

/-- Witness for `lazy_materialization_frame_effect`: a capacity-2 bus with
one held seat on `"x"`; probing the fresh date `"y"` with the out-of-range
seat 7 mutates the ledger and halves its load factor. -/
theorem lazy_materialization_frame_effect_witness :
    datesOf (c8Bus.is_seat_available 7 "y").2 = datesOf c8Bus ++ ["y"] ∧
    datesOf (c8Bus.get_available_seats "y").2 = datesOf c8Bus ++ ["y"] ∧
    (¬ (1 ≤ 7 ∧ 7 ≤ c8Bus.totalSeats) →
      c8Bus.book_seat 7 "B" "y" 9 = (false, c8Bus.ensure_date_exists "y")) ∧
    (0 < c8Bus.totalBooked → 0 < c8Bus.totalSeats →
      (c8Bus.is_seat_available 7 "y").2.get_overall_load_factor
        < c8Bus.get_overall_load_factor) :=
  lazy_materialization_frame_effect c8Bus "y" 7 "B" 9 (by decide)

theorem busWF_ensure (b : Bus) (d : String) (hwf : busWF b) :
    busWF (b.ensure_date_exists d) := by
  unfold Bus.ensure_date_exists
  split
  · exact hwf
  · intro p hp
    simp only [List.mem_append, List.mem_singleton] at hp
    cases hp with
    | inl hmem => exact hwf p hmem
    | inr heq => simp [heq]

theorem ensure_lookup_isSome (b : Bus) (d : String) :
    (alLookup (b.ensure_date_exists d).seatsByDate d).isSome := by
  unfold Bus.ensure_date_exists
  split
  · assumption
  · rename_i h
    rw [alLookup_append_right _ _ _ (by
      cases hl : alLookup b.seatsByDate d with
      | none => rfl
      | some r => rw [hl] at h; simp at h)]
    rfl

theorem ensure_idem (b : Bus) (d : String) :
    (b.ensure_date_exists d).ensure_date_exists d = b.ensure_date_exists d :=
  ensure_of_isSome _ _ (ensure_lookup_isSome b d)

theorem ensure_busId (b : Bus) (d : String) :
    (b.ensure_date_exists d).busId = b.busId := by
  unfold Bus.ensure_date_exists
  split <;> rfl

theorem ensure_status (b : Bus) (d : String) :
    (b.ensure_date_exists d).status = b.status := by
  unfold Bus.ensure_date_exists
  split <;> rfl

theorem getBus_busId (st : SystemState) (k : Nat) (b : Bus)
    (h : st.getBus k = some b) : b.busId = k := by
  have := List.find?_some h
  simpa using this

theorem find?_map_replace (l : List Bus) (b : Bus) (k : Nat) (h : k ≠ b.busId) :
    (l.map (fun x => if x.busId = b.busId then b else x)).find?
        (fun x => x.busId == k)
      = l.find? (fun x => x.busId == k) := by
  induction l with
  | nil => rfl
  | cons x xs ih =>
    simp only [List.map_cons]
    by_cases hx : x.busId = b.busId
    · rw [if_pos hx]
      have h1 : (b.busId == k) = false := by
        simp only [beq_eq_false_iff_ne]
        exact fun he => h he.symm
      have h2 : (x.busId == k) = false := by rw [hx]; exact h1
      simp only [List.find?_cons, h1, h2, cond_false]
      exact ih
    · rw [if_neg hx]
      simp only [List.find?_cons]
      cases hxk : (x.busId == k) with
      | true => rfl
      | false =>
        simp only [cond_false]
        exact ih

theorem getBus_setBus_ne (st : SystemState) (b : Bus) (k : Nat)
    (h : k ≠ b.busId) : (st.setBus b).getBus k = st.getBus k :=
  find?_map_replace st.buses b k h

theorem ensRow_fresh (b : Bus) (d : String)
    (h : alLookup b.seatsByDate d = none) :
    ensRow b d = List.replicate b.totalSeats none := by
  unfold ensRow
  rw [ensure_fresh b d h]
  simp [Bus.row, alLookup_append_right _ _ _ h]

theorem ensRow_known (b : Bus) (d : String) (r : List (Option String))
    (h : alLookup b.seatsByDate d = some r) : ensRow b d = r := by
  unfold ensRow
  rw [ensure_of_isSome b d (by simp [h])]
  simp [Bus.row, h]

theorem ensRow_length (b : Bus) (d : String) (hwf : busWF b) :
    (ensRow b d).length = b.totalSeats := by
  cases h : alLookup b.seatsByDate d with
  | none => rw [ensRow_fresh b d h]; simp
  | some r =>
    rw [ensRow_known b d r h]
    exact hwf (d, r) (alLookup_mem _ _ _ h)

theorem holderOn_eq_ensRow (b : Bus) (s : Nat) (d : String) :
    holderOn b s d = (ensRow b d).getD (s - 1) none := by
  unfold holderOn
  cases h : alLookup b.seatsByDate d with
  | none => rw [ensRow_fresh b d h, getD_replicate_none]
  | some r => rw [ensRow_known b d r h]

theorem ensRow_ensure (b : Bus) (d : String) :
    ensRow (b.ensure_date_exists d) d = ensRow b d := by
  unfold ensRow
  rw [ensure_idem]

theorem freeSeatsOn_eq (b : Bus) (d : String) :
    freeSeatsOn b d
      = ((List.range (ensRow b d).length).filter
          (fun i => ((ensRow b d).getD i none).isNone)).map (· + 1) := rfl

theorem freeSeatsOn_ensure (b : Bus) (d : String) :
    freeSeatsOn (b.ensure_date_exists d) d = freeSeatsOn b d := by
  rw [freeSeatsOn_eq, freeSeatsOn_eq, ensRow_ensure]

theorem mem_freeSeatsOn_iff (b : Bus) (d : String) (s : Nat) (hwf : busWF b) :
    s ∈ freeSeatsOn b d ↔
      1 ≤ s ∧ s ≤ b.totalSeats ∧ ((ensRow b d).getD (s - 1) none).isNone = true := by
  rw [freeSeatsOn_eq, ensRow_length b d hwf]
  simp only [List.mem_map, List.mem_filter, List.mem_range]
  constructor
  · rintro ⟨i, ⟨hlt, hfree⟩, hi⟩
    subst hi
    exact ⟨by omega, by omega, by simpa using hfree⟩
  · rintro ⟨h1, h2, hfree⟩
    exact ⟨s - 1, ⟨by omega, hfree⟩, by omega⟩

theorem get_available_seats_snd (b : Bus) (d : String) :
    (b.get_available_seats d).2 = b.ensure_date_exists d := rfl

theorem is_seat_available_of_range (b : Bus) (s : Nat) (d : String)
    (h1 : 1 ≤ s) (h2 : s ≤ b.totalSeats) :
    b.is_seat_available s d
      = (.ok (((ensRow b d).getD (s - 1) none).isNone), b.ensure_date_exists d) := by
  simp only [Bus.is_seat_available]
  rw [if_pos (by rw [ensure_totalSeats]; exact ⟨h1, h2⟩)]
  rfl

theorem specPlacement_congr (st2 st : SystemState) (ids : List Nat)
    (s : Nat) (d : String) (h : ∀ j ∈ ids, st2.getBus j = st.getBus j) :
    specPlacement st2 ids s d = specPlacement st ids s d := by
  induction ids with
  | nil => rfl
  | cons k rest ih =>
    have hk := h k (by simp)
    have hrest := fun j hj => h j (List.mem_cons_of_mem k hj)
    simp only [specPlacement]
    rw [hk]
    cases st.getBus k with
    | none => exact ih hrest
    | some b =>
      dsimp only
      by_cases hcond : b.status = "active" ∧ freeSeatsOn b d ≠ []
      · rw [if_pos hcond, if_pos hcond]
      · rw [if_neg hcond, if_neg hcond]
        exact ih hrest

theorem keepOK_of_congr (st2 st : SystemState) (s j : Nat)
    (hpres : st2.getBus j = st.getBus j) (h : keepOK st s j) : keepOK st2 s j := by
  unfold keepOK at h ⊢
  rw [hpres]
  exact h

/-- C7 (amended): whenever the transfer loop completes without a `KeyError`
(every keep id that resolves is well formed with the seat number in range)
over distinct keep ids, the landing spot it picks is exactly
`specPlacement`: the first active keep-ledger with any free seat for the
date — the same seat number when free there, else that ledger's lowest free
seat — independent of the lazy-materialization side effects of the scan. -/
theorem merge_transfer_lands_on_first_available_keep
    (st : SystemState) (keepIds : List Nat) (seat_num : Nat)
    (date client_id : String) (now : Nat) (res : Option (Nat × Nat))
    (st' : SystemState) (hN : keepIds.Nodup)
    (hK : ∀ k ∈ keepIds, keepOK st seat_num k)
    (h : SystemState.tryTransfer st keepIds seat_num date client_id now
      = .ok (res, st')) :
    res = specPlacement st keepIds seat_num date := by
  induction keepIds generalizing st res st' with
  | nil =>
    simp only [SystemState.tryTransfer, Except.ok.injEq, Prod.mk.injEq] at h
    exact h.1.symm
  | cons k rest ih =>
    have hNrest := List.Nodup.of_cons hN
    have hknotin : k ∉ rest := by
      rw [List.nodup_cons] at hN
      exact hN.1
    cases hgb : st.getBus k with
    | none =>
      rw [show SystemState.tryTransfer st (k :: rest) seat_num date client_id now
            = SystemState.tryTransfer st rest seat_num date client_id now from by
          simp only [SystemState.tryTransfer]
          rw [hgb]] at h
      rw [show specPlacement st (k :: rest) seat_num date
            = specPlacement st rest seat_num date from by
          simp only [specPlacement]
          rw [hgb]]
      exact ih st res st' hNrest
        (fun j hj => hK j (List.mem_cons_of_mem k hj)) h
    | some target =>
      have hkOK := hK k (by simp)
      unfold keepOK at hkOK
      rw [hgb] at hkOK
      obtain ⟨hwf, h1, h2⟩ := hkOK
      have hbusid : target.busId = k := getBus_busId st k target hgb
      by_cases hact : target.status = "active"
      case neg =>
        rw [show SystemState.tryTransfer st (k :: rest) seat_num date client_id now
              = SystemState.tryTransfer st rest seat_num date client_id now from by
            simp only [SystemState.tryTransfer]
            rw [hgb]
            dsimp only
            rw [if_neg hact]] at h
        rw [show specPlacement st (k :: rest) seat_num date
              = specPlacement st rest seat_num date from by
            simp only [specPlacement]
            rw [hgb]
            dsimp only
            rw [if_neg (by intro hc; exact hact hc.1)]]
        exact ih st res st' hNrest
          (fun j hj => hK j (List.mem_cons_of_mem k hj)) h
      case pos =>
        have hisa := is_seat_available_of_range target seat_num date h1 h2
        have h1' : 1 ≤ seat_num := h1
        have h2' : seat_num ≤ (target.ensure_date_exists date).totalSeats := by
          rw [ensure_totalSeats]
          exact h2
        have hwf1 : busWF (target.ensure_date_exists date) := busWF_ensure _ _ hwf
        cases hval : ((ensRow target date).getD (seat_num - 1) none).isNone with
        | true =>
          have hfree : holderOn (target.ensure_date_exists date) seat_num date = none := by
            rw [holderOn_eq_ensRow, ensRow_ensure]
            exact Option.isNone_iff_eq_none.mp hval
          have hbk := book_seat_free (target.ensure_date_exists date) seat_num date
            client_id now hwf1 h1' h2' hfree
          rw [show SystemState.tryTransfer st (k :: rest) seat_num date client_id now
                = .ok (some (k, seat_num),
                    (st.setBus (target.ensure_date_exists date)).setBus
                      ((target.ensure_date_exists date).book_seat seat_num client_id date now).2)
              from by
            simp only [SystemState.tryTransfer]
            rw [hgb]
            dsimp only
            rw [if_pos hact, hisa]
            dsimp only
            rw [hval, hbk.1]
            rfl] at h
          simp only [Except.ok.injEq, Prod.mk.injEq] at h
          rw [← h.1]
          have hmem : seat_num ∈ freeSeatsOn target date :=
            (mem_freeSeatsOn_iff target date seat_num hwf).mpr ⟨h1, h2, hval⟩
          rw [show specPlacement st (k :: rest) seat_num date
                = some (k, seat_num) from by
            simp only [specPlacement]
            rw [hgb]
            dsimp only
            rw [if_pos ⟨hact, List.ne_nil_of_mem hmem⟩, if_pos hmem]]
        | false =>
          have hga : (target.ensure_date_exists date).get_available_seats date
              = (freeSeatsOn target date, target.ensure_date_exists date) := by
            rw [show (target.ensure_date_exists date).get_available_seats date
                  = (((target.ensure_date_exists date).get_available_seats date).1,
                     ((target.ensure_date_exists date).get_available_seats date).2)
                from rfl]
            rw [get_available_seats_snd, ensure_idem]
            rw [show ((target.ensure_date_exists date).get_available_seats date).1
                  = freeSeatsOn (target.ensure_date_exists date) date from rfl]
            rw [freeSeatsOn_ensure]
          have hnotmem : seat_num ∉ freeSeatsOn target date := by
            intro hmem
            have := (mem_freeSeatsOn_iff target date seat_num hwf).mp hmem
            rw [hval] at this
            exact Bool.false_ne_true this.2.2
          cases hfs : freeSeatsOn target date with
          | nil =>
            rw [show SystemState.tryTransfer st (k :: rest) seat_num date client_id now
                  = SystemState.tryTransfer
                      ((st.setBus (target.ensure_date_exists date)).setBus
                        (target.ensure_date_exists date))
                      rest seat_num date client_id now
                from by
              simp only [SystemState.tryTransfer]
              rw [hgb]
              dsimp only
              rw [if_pos hact, hisa]
              dsimp only
              rw [hval, hga, hfs]
              rfl] at h
            have hpres : ∀ j ∈ rest,
                ((st.setBus (target.ensure_date_exists date)).setBus
                  (target.ensure_date_exists date)).getBus j = st.getBus j := by
              intro j hj
              have hjk : j ≠ k := fun he => hknotin (he ▸ hj)
              have hbid : j ≠ (target.ensure_date_exists date).busId := by
                rw [ensure_busId, hbusid]
                exact hjk
              rw [getBus_setBus_ne _ _ _ hbid, getBus_setBus_ne _ _ _ hbid]
            have hres := ih _ res st' hNrest
              (fun j hj => keepOK_of_congr _ _ _ _ (hpres j hj)
                (hK j (List.mem_cons_of_mem k hj))) h
            rw [hres, specPlacement_congr _ _ _ _ _ hpres]
            rw [show specPlacement st (k :: rest) seat_num date
                  = specPlacement st rest seat_num date from by
              simp only [specPlacement]
              rw [hgb]
              dsimp only
              rw [if_neg (by intro hc; exact hc.2 hfs)]]
          | cons a t =>
            have hamem : a ∈ freeSeatsOn target date := by
              rw [hfs]
              exact List.mem_cons_self a t
            obtain ⟨ha1, ha2, hafree⟩ :=
              (mem_freeSeatsOn_iff target date a hwf).mp hamem
            have hfreea : holderOn (target.ensure_date_exists date) a date = none := by
              rw [holderOn_eq_ensRow, ensRow_ensure]
              exact Option.isNone_iff_eq_none.mp hafree
            have hbka := book_seat_free (target.ensure_date_exists date) a date
              client_id now hwf1 ha1 (by rw [ensure_totalSeats]; exact ha2) hfreea
            rw [show SystemState.tryTransfer st (k :: rest) seat_num date client_id now
                  = .ok (some (k, a),
                      ((st.setBus (target.ensure_date_exists date)).setBus
                        (target.ensure_date_exists date)).setBus
                        ((target.ensure_date_exists date).book_seat a client_id date now).2)
                from by
              simp only [SystemState.tryTransfer]
              rw [hgb]
              dsimp only
              rw [if_pos hact, hisa]
              dsimp only
              rw [hval, hga, hfs]
              dsimp only [List.head?]
              rw [hbka.1]
              rfl] at h
            simp only [Except.ok.injEq, Prod.mk.injEq] at h
            rw [← h.1]
            rw [show specPlacement st (k :: rest) seat_num date
                  = some (k, a) from by
              simp only [specPlacement]
              rw [hgb]
              dsimp only
              rw [if_pos ⟨hact, by rw [hfs]; simp⟩, if_neg hnotmem, hfs]
              rfl]

/-- Witness for `merge_transfer_lands_on_first_available_keep` at the C7
counterexample state: the transfer of seat 2 over keeps [1, 2] lands on
(bus 1, seat 1), matching `specPlacement`. -/
theorem merge_transfer_lands_on_first_available_keep_witness :
    (some (1, 1) : Option (Nat × Nat)) = specPlacement c7State [1, 2] 2 "d" :=
  merge_transfer_lands_on_first_available_keep c7State [1, 2] 2 "d" "C" 0
    (some (1, 1)) c7TT (by decide) (by decide) (by decide)

theorem book_seat_busId (b : Bus) (s : Nat) (c d : String) (n : Nat)
    (conf : Bool) : ((b.book_seat s c d n conf).2).busId = b.busId := by
  simp only [Bus.book_seat]
  split
  · split
    · exact ensure_busId b d
    · exact ensure_busId b d
  · exact ensure_busId b d

theorem release_seat_busId (b : Bus) (s : Nat) (d : String) :
    ((b.release_seat s d).2).busId = b.busId := by
  unfold Bus.release_seat
  split <;> rfl

theorem setBus_bookings (st : SystemState) (b : Bus) :
    (st.setBus b).bookings_db = st.bookings_db := rfl

theorem updateFirstMatch_keys (l : List (String × BookingData))
    (client_id : String) (old_bus old_seat : Nat) (date : String)
    (new_bus new_seat : Nat) :
    (updateFirstMatch l client_id old_bus old_seat date new_bus new_seat).1.map
        Prod.fst
      = l.map Prod.fst := by
  induction l with
  | nil => rfl
  | cons p rest ih =>
    obtain ⟨bid, bk⟩ := p
    simp only [updateFirstMatch]
    split
    · rfl
    · simp only [List.map_cons]
      rw [show (updateFirstMatch rest client_id old_bus old_seat date
            new_bus new_seat).1.map Prod.fst = rest.map Prod.fst from ih]

theorem update_booking_buses (st : SystemState) (client_id : String)
    (old_bus old_seat new_bus new_seat : Nat) (date : String) :
    (st.update_booking_after_merge client_id old_bus old_seat new_bus new_seat
      date).buses = st.buses := by
  cases hu : (updateFirstMatch st.bookings_db client_id old_bus old_seat date
      new_bus new_seat).2 with
  | none =>
    simp only [SystemState.update_booking_after_merge]
    rw [hu]
  | some p =>
    obtain ⟨bid, bk'⟩ := p
    simp only [SystemState.update_booking_after_merge]
    rw [hu]

theorem update_booking_keys (st : SystemState) (client_id : String)
    (old_bus old_seat new_bus new_seat : Nat) (date : String) :
    (st.update_booking_after_merge client_id old_bus old_seat new_bus new_seat
      date).bookings_db.map Prod.fst = st.bookings_db.map Prod.fst := by
  cases hu : (updateFirstMatch st.bookings_db client_id old_bus old_seat date
      new_bus new_seat).2 with
  | none =>
    simp only [SystemState.update_booking_after_merge]
    rw [hu]
  | some p =>
    obtain ⟨bid, bk'⟩ := p
    simp only [SystemState.update_booking_after_merge]
    rw [hu]
    exact updateFirstMatch_keys _ _ _ _ _ _ _

theorem getBus_update_booking (st : SystemState) (client_id : String)
    (old_bus old_seat new_bus new_seat : Nat) (date : String) (j : Nat) :
    (st.update_booking_after_merge client_id old_bus old_seat new_bus new_seat
      date).getBus j = st.getBus j := by
  unfold SystemState.getBus
  rw [update_booking_buses]

theorem tryTransfer_frame (keepIds : List Nat) (st : SystemState)
    (seat_num : Nat) (date client_id : String) (now : Nat) (res : Option (Nat × Nat))
    (st1 : SystemState)
    (h : SystemState.tryTransfer st keepIds seat_num date client_id now
      = .ok (res, st1)) :
    st1.bookings_db = st.bookings_db ∧
    ∀ j, j ∉ keepIds → st1.getBus j = st.getBus j := by
  induction keepIds generalizing st res st1 with
  | nil =>
    simp only [SystemState.tryTransfer, Except.ok.injEq, Prod.mk.injEq] at h
    rw [← h.2]
    exact ⟨rfl, fun j _ => rfl⟩
  | cons k rest ih =>
    have hstep : ∀ (stx : SystemState),
        SystemState.tryTransfer stx rest seat_num date client_id now = .ok (res, st1) →
        stx.bookings_db = st.bookings_db →
        (∀ j, j ∉ (k :: rest) → stx.getBus j = st.getBus j) →
        st1.bookings_db = st.bookings_db ∧
        ∀ j, j ∉ (k :: rest) → st1.getBus j = st.getBus j := by
      intro stx hx hbk hpres
      obtain ⟨hb, hp⟩ := ih stx res st1 hx
      refine ⟨hb.trans hbk, fun j hj => ?_⟩
      have hjrest : j ∉ rest := fun hc => hj (List.mem_cons_of_mem k hc)
      rw [hp j hjrest]
      exact hpres j hj
    simp only [SystemState.tryTransfer] at h
    cases hgb : st.getBus k with
    | none =>
      rw [hgb] at h
      dsimp only at h
      exact hstep st h rfl (fun j _ => rfl)
    | some target =>
      rw [hgb] at h
      dsimp only at h
      have hbusid : target.busId = k := getBus_busId st k target hgb
      have hsetter : ∀ (sty : SystemState) (b : Bus), b.busId = k →
          ∀ j, j ∉ (k :: rest) → (sty.setBus b).getBus j = sty.getBus j := by
        intro sty b hb j hj
        have hjk : j ≠ k := fun he => hj (he ▸ List.mem_cons_self k rest)
        exact getBus_setBus_ne sty b j (by rw [hb]; exact hjk)
      by_cases hact : target.status = "active"
      · rw [if_pos hact] at h
        have hprobe_id : (target.is_seat_available seat_num date).2.busId = k := by
          rw [is_seat_available_snd, ensure_busId, hbusid]
        cases hav : (target.is_seat_available seat_num date).1 with
        | error e =>
          rw [hav] at h
          exact absurd h (by simp)
        | ok avail =>
          rw [hav] at h
          cases avail with
          | true =>
            dsimp only at h
            by_cases hok : ((target.is_seat_available seat_num date).2.book_seat
                seat_num client_id date now).1 = true
            · rw [if_pos hok] at h
              simp only [Except.ok.injEq, Prod.mk.injEq] at h
              rw [← h.2]
              refine ⟨rfl, fun j hj => ?_⟩
              rw [hsetter _ _ (by rw [book_seat_busId, hprobe_id]) j hj,
                hsetter _ _ hprobe_id j hj]
            · rw [if_neg hok] at h
              exact hstep _ h rfl (fun j hj =>
                by rw [hsetter _ _ (by rw [book_seat_busId, hprobe_id]) j hj,
                  hsetter _ _ hprobe_id j hj])
          | false =>
            dsimp only at h
            have hav_id : ((target.is_seat_available seat_num date).2.get_available_seats
                date).2.busId = k := by
              rw [get_available_seats_snd, ensure_busId, hprobe_id]
            cases hhd : ((target.is_seat_available seat_num date).2.get_available_seats
                date).1.head? with
            | some new_seat =>
              rw [hhd] at h
              dsimp only at h
              by_cases hok : (((target.is_seat_available seat_num date).2.get_available_seats
                  date).2.book_seat new_seat client_id date now).1 = true
              · rw [if_pos hok] at h
                simp only [Except.ok.injEq, Prod.mk.injEq] at h
                rw [← h.2]
                refine ⟨rfl, fun j hj => ?_⟩
                rw [hsetter _ _ (by rw [book_seat_busId, hav_id]) j hj,
                  hsetter _ _ hav_id j hj,
                  hsetter _ _ hprobe_id j hj]
              · rw [if_neg hok] at h
                exact hstep _ h rfl (fun j hj =>
                  by rw [hsetter _ _ (by rw [book_seat_busId, hav_id]) j hj,
                    hsetter _ _ hav_id j hj,
                    hsetter _ _ hprobe_id j hj])
            | none =>
              rw [hhd] at h
              dsimp only at h
              exact hstep _ h rfl (fun j hj =>
                by rw [hsetter _ _ hav_id j hj, hsetter _ _ hprobe_id j hj])
      · rw [if_neg hact] at h
        exact hstep st h rfl (fun j _ => rfl)

theorem find?_map_replace_self (l : List Bus) (b c : Bus)
    (h : l.find? (fun x => x.busId == b.busId) = some c) :
    (l.map (fun x => if x.busId = b.busId then b else x)).find?
        (fun x => x.busId == b.busId)
      = some b := by
  induction l with
  | nil => simp at h
  | cons x xs ih =>
    simp only [List.map_cons]
    by_cases hx : x.busId = b.busId
    · rw [if_pos hx]
      simp [List.find?_cons]
    · rw [if_neg hx]
      have hxf : (x.busId == b.busId) = false := by
        simp [hx]
      simp only [List.find?_cons, hxf, cond_false] at h ⊢
      exact ih h

theorem getBus_setBus_self (st : SystemState) (b c : Bus)
    (h : st.getBus b.busId = some c) :
    (st.setBus b).getBus b.busId = some b :=
  find?_map_replace_self st.buses b c h

theorem processSeats_frame (items : List (Nat × Option String))
    (st : SystemState) (sourceId : Nat) (keepIds : List Nat) (date : String)
    (now : Nat) (st1 : SystemState)
    (h : SystemState.processSeats st sourceId keepIds date now items = .ok st1) :
    st1.bookings_db.map Prod.fst = st.bookings_db.map Prod.fst ∧
    ∀ j, j ∉ keepIds → j ≠ sourceId → st1.getBus j = st.getBus j := by
  induction items generalizing st with
  | nil =>
    simp only [SystemState.processSeats, Except.ok.injEq] at h
    rw [← h]
    exact ⟨rfl, fun _ _ _ => rfl⟩
  | cons it rest ih =>
    obtain ⟨seat_num, holder⟩ := it
    cases holder with
    | none =>
      simp only [SystemState.processSeats] at h
      exact ih st h
    | some client =>
      simp only [SystemState.processSeats] at h
      cases htt : SystemState.tryTransfer st keepIds seat_num date client now with
      | error e =>
        rw [htt] at h
        exact absurd h (by simp)
      | ok p =>
        obtain ⟨r, stt⟩ := p
        rw [htt] at h
        have hframe := tryTransfer_frame keepIds st seat_num date client now r stt htt
        cases r with
        | none =>
          obtain ⟨hb, hp⟩ := ih stt h
          refine ⟨hb.trans (by rw [hframe.1]), fun j hj hjs => ?_⟩
          rw [hp j hj hjs]
          exact hframe.2 j hj
        | some q =>
          obtain ⟨newBusId, new_seat⟩ := q
          dsimp only at h
          cases hsrc : (stt.update_booking_after_merge client sourceId seat_num
              newBusId new_seat date).getBus sourceId with
          | none =>
            rw [hsrc] at h
            dsimp only at h
            obtain ⟨hb, hp⟩ := ih _ h
            refine ⟨hb.trans (by
              rw [update_booking_keys, hframe.1]), fun j hj hjs => ?_⟩
            rw [hp j hj hjs, getBus_update_booking]
            exact hframe.2 j hj
          | some src =>
            rw [hsrc] at h
            dsimp only at h
            obtain ⟨hb, hp⟩ := ih _ h
            have hsrcid : src.busId = sourceId := getBus_busId _ _ _ hsrc
            refine ⟨hb.trans (by
              rw [setBus_bookings, update_booking_keys, hframe.1]),
              fun j hj hjs => ?_⟩
            rw [hp j hj hjs,
              getBus_setBus_ne _ _ _ (by rw [release_seat_busId, hsrcid]; exact hjs),
              getBus_update_booking]
            exact hframe.2 j hj

theorem processDates_frame (dates : List (String × List (Option String)))
    (st : SystemState) (sourceId : Nat) (keepIds : List Nat) (now : Nat)
    (st1 : SystemState)
    (h : SystemState.processDates st sourceId keepIds now dates = .ok st1) :
    st1.bookings_db.map Prod.fst = st.bookings_db.map Prod.fst ∧
    ∀ j, j ∉ keepIds → j ≠ sourceId → st1.getBus j = st.getBus j := by
  induction dates generalizing st with
  | nil =>
    simp only [SystemState.processDates, Except.ok.injEq] at h
    rw [← h]
    exact ⟨rfl, fun _ _ _ => rfl⟩
  | cons dr rest ih =>
    obtain ⟨date, r⟩ := dr
    simp only [SystemState.processDates] at h
    cases hps : SystemState.processSeats st sourceId keepIds date now
        (SystemState.seatItems r) with
    | error e =>
      rw [hps] at h
      exact absurd h (by simp)
    | ok stS =>
      rw [hps] at h
      dsimp only at h
      obtain ⟨hb1, hp1⟩ := processSeats_frame _ st sourceId keepIds date now stS hps
      obtain ⟨hb2, hp2⟩ := ih stS h
      refine ⟨hb2.trans hb1, fun j hj hjs => ?_⟩
      rw [hp2 j hj hjs, hp1 j hj hjs]

theorem processSource_result (st : SystemState) (keepIds : List Nat)
    (now sourceId : Nat) (st1 : SystemState)
    (h : SystemState.processSource st keepIds now sourceId = .ok st1) :
    st1.bookings_db.map Prod.fst = st.bookings_db.map Prod.fst ∧
    (∀ j, j ∉ keepIds → j ≠ sourceId → st1.getBus j = st.getBus j) ∧
    (∀ b, st1.getBus sourceId = some b →
      b.status = "merged" ∧ b.seatsByDate = []) := by
  unfold SystemState.processSource at h
  cases hsrc : st.getBus sourceId with
  | none =>
    rw [hsrc] at h
    simp only [Except.ok.injEq] at h
    rw [← h]
    exact ⟨rfl, fun _ _ _ => rfl, fun b hb => absurd (hsrc ▸ hb) (by simp)⟩
  | some src =>
    rw [hsrc] at h
    dsimp only at h
    cases hpd : SystemState.processDates st sourceId keepIds now src.seatsByDate with
    | error e =>
      rw [hpd] at h
      exact absurd h (by simp)
    | ok stD =>
      rw [hpd] at h
      dsimp only at h
      obtain ⟨hb1, hp1⟩ := processDates_frame _ st sourceId keepIds now stD hpd
      cases hsrc2 : stD.getBus sourceId with
      | none =>
        rw [hsrc2] at h
        simp only [Except.ok.injEq] at h
        rw [← h]
        exact ⟨hb1, hp1, fun b hb => absurd (hsrc2 ▸ hb) (by simp)⟩
      | some src2 =>
        rw [hsrc2] at h
        simp only [Except.ok.injEq] at h
        have hsrc2id : src2.busId = sourceId := getBus_busId _ _ _ hsrc2
        have hclid : ({ src2 with
            status := "merged", seatsByDate := [],
            reservationTime := [], bookingConfirmed := [] } : Bus).busId
            = sourceId := hsrc2id
        refine ⟨?_, ?_, ?_⟩
        · rw [← h, setBus_bookings]
          exact hb1
        · intro j hj hjs
          rw [← h, getBus_setBus_ne _ _ _ (by rw [hclid]; exact hjs)]
          exact hp1 j hj hjs
        · intro b hb
          rw [← h] at hb
          have hself := getBus_setBus_self stD
            ({ src2 with
              status := "merged", seatsByDate := [],
              reservationTime := [], bookingConfirmed := [] } : Bus) src2
            (by rw [hclid]; exact hsrc2)
          rw [← hclid] at hb
          rw [hself] at hb
          cases hb
          exact ⟨rfl, rfl⟩

theorem processSources_result (srcs : List Nat) (st : SystemState)
    (keepIds : List Nat) (now : Nat) (st' : SystemState)
    (h : SystemState.processSources st keepIds now srcs = .ok st')
    (hdisj : ∀ i ∈ srcs, i ∉ keepIds) (hnd : srcs.Nodup) :
    st'.bookings_db.map Prod.fst = st.bookings_db.map Prod.fst ∧
    (∀ j, j ∉ keepIds → j ∉ srcs → st'.getBus j = st.getBus j) ∧
    (∀ i ∈ srcs, ∀ b, st'.getBus i = some b →
      b.status = "merged" ∧ b.seatsByDate = []) := by
  induction srcs generalizing st with
  | nil =>
    simp only [SystemState.processSources, Except.ok.injEq] at h
    rw [← h]
    exact ⟨rfl, fun _ _ _ => rfl, fun i hi => absurd hi (by simp)⟩
  | cons s rest ih =>
    simp only [SystemState.processSources] at h
    cases hps : SystemState.processSource st keepIds now s with
    | error e =>
      rw [hps] at h
      exact absurd h (by simp)
    | ok st1 =>
      rw [hps] at h
      dsimp only at h
      obtain ⟨hb1, hp1, hc1⟩ := processSource_result st keepIds now s st1 hps
      have hndrest : rest.Nodup := List.Nodup.of_cons hnd
      have hsnotinrest : s ∉ rest := by
        rw [List.nodup_cons] at hnd
        exact hnd.1
      obtain ⟨hb2, hp2, hc2⟩ := ih st1 h
        (fun i hi => hdisj i (List.mem_cons_of_mem s hi)) hndrest
      refine ⟨hb2.trans hb1, fun j hj hjs => ?_, fun i hi b hb => ?_⟩
      · have hjrest : j ∉ rest := fun hc => hjs (List.mem_cons_of_mem s hc)
        have hjs' : j ≠ s := fun he => hjs (he ▸ List.mem_cons_self s rest)
        rw [hp2 j hj hjrest, hp1 j hj hjs']
      · rcases List.mem_cons.mp hi with hi1 | hi2
        · subst hi1
          have hpres : st'.getBus i = st1.getBus i :=
            hp2 i (hdisj i (List.mem_cons_self i rest)) hsnotinrest
          rw [hpres] at hb
          exact hc1 b hb
        · exact hc2 i hi2 b hb

theorem insertByLoad_perm (b : Bus) (l : List Bus) :
    (insertByLoad b l).Perm (b :: l) := by
  induction l with
  | nil => exact List.Perm.refl _
  | cons c cs ih =>
    unfold insertByLoad
    split
    · exact (ih.cons c).trans (List.Perm.swap b c cs)
    · exact List.Perm.refl _

theorem sortByLoad_perm_aux (l acc : List Bus) :
    (l.foldl (fun acc b => insertByLoad b acc) acc).Perm (acc ++ l) := by
  induction l generalizing acc with
  | nil => simp
  | cons x xs ih =>
    simp only [List.foldl_cons]
    refine (ih (insertByLoad x acc)).trans ?_
    refine ((insertByLoad_perm x acc).append_right xs).trans ?_
    show (x :: (acc ++ xs)).Perm (acc ++ x :: xs)
    exact List.perm_middle.symm

theorem sortByLoad_perm (l : List Bus) : (sortByLoad l).Perm l := by
  have := sortByLoad_perm_aux l []
  simpa [sortByLoad] using this

/-- C2 (amended): whenever `merge_buses` completes successfully on a fleet
with distinct bus ids, (a) the registry afterwards contains exactly the same
booking ids as before — the merge rewrites entries in place and never adds or
removes one — and (b) every merged-source ledger ends the merge with status
`merged` and zero live seats (its seat maps are cleared). Resolvability of
every booking, as the original claim stated it, does not follow: an
unplaceable hold is only logged, and its registry entry is left dangling
(see the counterexample). -/
theorem merge_preserves_registry_and_empties_sources
    (st : SystemState) (now : Nat) (ids : List Nat) (kept : Nat)
    (st' : SystemState) (huniq : (st.buses.map Bus.busId).Nodup)
    (h : st.merge_buses now = .ok (.success ids kept, st')) :
    st'.bookings_db.map Prod.fst = st.bookings_db.map Prod.fst ∧
    ∀ i ∈ ids, ∀ b, st'.getBus i = some b →
      b.status = "merged" ∧ b.seatsByDate = [] := by
  unfold SystemState.merge_buses at h
  by_cases hload : st.load_threshold_low ≤ st.get_overall_load_factor
  · rw [if_pos hload] at h
    exact absurd h (by simp)
  · rw [if_neg hload] at h
    simp only [] at h
    set active := st.buses.filter (fun b => b.status == "active") with hactive
    set sorted := sortByLoad active with hsorteddef
    set mergeIds := (sorted.take (sorted.length / 2)).map Bus.busId with hmids
    set keepIds := (sorted.drop (sorted.length / 2)).map Bus.busId with hkids
    cases hps : SystemState.processSources st keepIds now mergeIds with
    | error e =>
      rw [hps] at h
      exact absurd h (by simp)
    | ok st1 =>
      rw [hps] at h
      simp only [Except.ok.injEq, Prod.mk.injEq, MergeResult.success.injEq] at h
      obtain ⟨⟨hids, _⟩, hst⟩ := h
      have hact_sub : active.Sublist st.buses := List.filter_sublist _
      have hactN : (active.map Bus.busId).Nodup :=
        List.Nodup.sublist (List.Sublist.map Bus.busId hact_sub) huniq
      have hperm : (sorted.map Bus.busId).Perm (active.map Bus.busId) :=
        (sortByLoad_perm active).map Bus.busId
      have hsortedN : (sorted.map Bus.busId).Nodup := hperm.nodup_iff.mpr hactN
      have happN : (mergeIds ++ keepIds).Nodup := by
        rw [hmids, hkids, ← List.map_append, List.take_append_drop]
        exact hsortedN
      rw [List.nodup_append] at happN
      obtain ⟨hndM, _, hdisj⟩ := happN
      obtain ⟨hb, _, hclear⟩ :=
        processSources_result mergeIds st keepIds now st1 hps
          (fun i hi => hdisj hi) hndM
      constructor
      · rw [← hst]
        exact hb
      · intro i hi b hbus
        rw [← hst] at hbus
        exact hclear i (hids ▸ hi) b hbus

/-- Witness for `merge_preserves_registry_and_empties_sources` at the C2
counterexample state: the registry keys survive the merge and merged bus 1
ends cleared. -/
theorem merge_preserves_registry_and_empties_sources_witness :
    c2Post.bookings_db.map Prod.fst = c2State.bookings_db.map Prod.fst ∧
    ((1 : Nat) ∈ [1] ∧ c2Post.getBus 1 = some c2MergedBus ∧
      c2MergedBus.status = "merged" ∧ c2MergedBus.seatsByDate = []) :=
  ⟨(merge_preserves_registry_and_empties_sources c2State 0 [1] 1 c2Post
      (by decide) (by decide)).1,
   by decide,
   by decide,
   (merge_preserves_registry_and_empties_sources c2State 0 [1] 1 c2Post
      (by decide) (by decide)).2 1 (by decide) c2MergedBus (by decide)⟩
